import Mathlib

/-!
Shallow embedding of the LDAP authentication / synchronization core of the
repository (files `api/ldap/ldap_auth.py`, `api/db/services/ldap_service.py`,
`api/ldap/ldap_scheduler.py`, `api/apps/ldap_app.py`), together with theorems
settling the specification claims about it.

Conventions of the embedding:
* Python strings are `String`; a Python value that may be `None` is an
  `Option String`.
* Python dict-key presence is distinguished from a present-but-`None` value
  where the source branches on presence (`'dn' in ldap_data`).
* The external LDAP directory and the fallibility of the database are an
  explicit environment (`LDAPWorld`): `bind` gives the outcome of a simple
  bind, `search` the entries a subtree search returns, and `persistFail`
  models the exception branch of `LDAPUserService.create_or_update_user`
  (a persistence error while upserting the entry with the given DN).
* Database row updates (`model.update(...).where(model.id == x)`) are maps
  over the row list touching every row whose `id` matches, exactly as SQL.
* Functions return, besides their Python return value, the trace of bind
  attempts, searches and sync-status writes they issue, so that claims about
  "no network call" and status transitions are statable.
-/

namespace RagflowLDAP

/-- Attribute values held by a directory entry: ldap3 exposes either a scalar
or a list of values. -/
inductive AttrVal where
  | scalar : String → AttrVal
  | multi : List String → AttrVal
deriving DecidableEq, Repr

/-- One directory entry as returned by an ldap3 search: its DN and its
returned attributes. -/
structure LDAPEntry where
  entry_dn : String
  attrs : List (String × AttrVal)
deriving DecidableEq, Repr

/-- The attribute names present on an entry (`entry.entry_attributes`). -/
def LDAPEntry.entry_attributes (e : LDAPEntry) : List String :=
  e.attrs.map Prod.fst

/-- `_get_attr_value` (identical in `LDAPAuthenticator` and
`LDAPSyncService`): absent attribute or falsy scalar gives `None`;
a multi-valued attribute gives its first value. -/
def get_attr_value (e : LDAPEntry) (attr_name : String) : Option String :=
  match e.attrs.lookup attr_name with
  | none => none
  | some (.scalar v) => if v = "" then none else some v
  | some (.multi vs) => vs.head?

/-- The `LDAPConfig` row (fields the core reads). An unset DN template is
the empty string, matching the Python falsiness test `if
config.user_dn_template`. -/
structure LDAPConfig where
  id : String := ""
  server_host : String := ""
  server_port : Nat := 389
  use_ssl : Bool := false
  bind_dn : String := ""
  bind_password : String := ""
  search_base : String := ""
  search_filter : String := ""
  user_dn_template : String := ""
  attr_mapping : List (String × String) := []
  enabled : Bool := false
  auto_create_user : Bool := false
  sync_enabled : Bool := false
  sync_interval : Int := 30
  sync_status : String := "idle"
  last_sync_time : Option Int := none
deriving DecidableEq, Repr

/-- The external environment: the directory server and the reliability of
the user store. `search` is the subtree search (base, filter);
`search_base_scope` is the BASE-scoped search at a DN with filter
`(objectClass=*)` used by `_get_user_info`. -/
structure LDAPWorld where
  bind : String → String → Bool
  search : String → String → List LDAPEntry
  search_base_scope : String → List LDAPEntry
  persistFail : String → Bool

/-- Python `x or default` where `x` is an optional string: both `None` and
the empty string are falsy. -/
def pyOrStr (x : Option String) (d : String) : String :=
  match x with
  | none => d
  | some s => if s = "" then d else s

/-- The (dn, password) pair `LDAPConnectionManager.connect` actually binds
with: `user_dn = bind_dn or self.config.bind_dn`, `user_password = password
or self.config.bind_password`. -/
def connectAttempt (c : LDAPConfig) (bind_dn password : Option String) :
    String × String :=
  (pyOrStr bind_dn c.bind_dn, pyOrStr password c.bind_password)

/-- `LDAPConnectionManager.connect`: attempts the simple bind and reports
success; any `LDAPException` is caught and reported as `False`. -/
def connect (w : LDAPWorld) (c : LDAPConfig) (bind_dn password : Option String) :
    Bool :=
  w.bind (connectAttempt c bind_dn password).1 (connectAttempt c bind_dn password).2

/-- The literal placeholder `\x7b\x7d` tested by `'{}' in search_filter`. -/
def phPositional : String := "\x7b\x7d"

/-- The literal placeholder `\x7busername\x7d` tested by
`'{username}' in search_filter`. -/
def phUsername : String := "\x7busername\x7d"

/-- Whether `pat` is an initial segment of the character list. -/
def startsWithChars : List Char → List Char → Bool
  | [], _ => true
  | _ :: _, [] => false
  | p :: ps, c :: cs => p == c && startsWithChars ps cs

/-- Whether `pat` occurs inside the character list. -/
def containsChars (pat : List Char) : List Char → Bool
  | [] => startsWithChars pat []
  | c :: cs => startsWithChars pat (c :: cs) || containsChars pat cs

/-- Fuelled worker for `strReplace`: replaces non-overlapping occurrences
left to right, as Python `str.replace` does. -/
def replaceGo (pat repl : List Char) : Nat → List Char → List Char
  | 0, s => s
  | fuel + 1, s =>
    match s with
    | [] => []
    | c :: cs =>
      if startsWithChars pat s then
        repl ++ replaceGo pat repl fuel (s.drop pat.length)
      else
        c :: replaceGo pat repl fuel cs

/-- Python `s.replace(pat, repl)` for a nonempty pattern; also the
substitution `format` performs for the single placeholder occurrences the
source feeds it. -/
def strReplace (s pat repl : String) : String :=
  ⟨replaceGo pat.data repl.data s.data.length s.data⟩

/-- Python substring membership `p in s` (for a nonempty pattern `p`). -/
def strContains (s p : String) : Bool :=
  containsChars p.data s.data

/-- Mapped attribute lookup `config.attr_mapping.get(key, dflt)`. -/
def mappedAttr (c : LDAPConfig) (key dflt : String) : String :=
  (c.attr_mapping.lookup key).getD dflt

/-- The search filter `_find_user_dn` sends when no DN template is
configured: the positional placeholder is tried first, then the named
placeholder, else the default equality filter on the mapped username
attribute. Python `format` with a single substitution is modelled as
replacement of the placeholder. -/
def effectiveSearchFilter (c : LDAPConfig) (username : String) : String :=
  if strContains c.search_filter phPositional then
    strReplace c.search_filter phPositional username
  else if strContains c.search_filter phUsername then
    strReplace c.search_filter phUsername username
  else
    "(" ++ mappedAttr c "username" "uid" ++ "=" ++ username ++ ")"

/-- `LDAPAuthenticator._find_user_dn`: the resolved DN (if any) together
with the trace of searches issued. With a template configured the template
is formatted and no search happens; otherwise one search runs and the DN of
the first matching entry is taken. -/
def find_user_dn (w : LDAPWorld) (c : LDAPConfig) (username : String) :
    Option String × List (String × String) :=
  if c.user_dn_template != "" then
    (some (strReplace c.user_dn_template phUsername username), [])
  else
    let f := effectiveSearchFilter c username
    ((w.search c.search_base f).head?.map LDAPEntry.entry_dn, [(c.search_base, f)])

/-- The profile dict `_get_user_info` builds. -/
structure UserInfo where
  dn : String
  username : Option String
  email : Option String
  nickname : Option String
  first_name : Option String
  last_name : Option String
  attributes : List (String × Option String)
deriving DecidableEq, Repr

/-- The full attribute bag stored under the `attributes` key. -/
def entryAttributesBag (e : LDAPEntry) : List (String × Option String) :=
  e.entry_attributes.map (fun a => (a, get_attr_value e a))

/-- `LDAPAuthenticator._get_user_info`: BASE-scoped search at the user DN,
mapping the configured attributes (with their documented defaults) over the
first entry; no entry gives `None`. -/
def get_user_info (w : LDAPWorld) (c : LDAPConfig) (user_dn : String) :
    Option UserInfo :=
  match (w.search_base_scope user_dn).head? with
  | none => none
  | some entry => some
      { dn := entry.entry_dn
        username := get_attr_value entry (mappedAttr c "username" "uid")
        email := get_attr_value entry (mappedAttr c "email" "mail")
        nickname := get_attr_value entry (mappedAttr c "nickname" "displayName")
        first_name := get_attr_value entry (mappedAttr c "first_name" "givenName")
        last_name := get_attr_value entry (mappedAttr c "last_name" "sn")
        attributes := entryAttributesBag entry }

/-- Result of `LDAPAuthenticator.authenticate_user`, together with the trace
of bind attempts and searches issued. -/
structure AuthResult where
  success : Bool
  profile : Option UserInfo
  binds : List (String × String)
  searches : List (String × String)
deriving DecidableEq, Repr

/-- `LDAPAuthenticator.authenticate_user`: the two-phase bind flow. Absent
or disabled configuration fails closed before any network activity. A failed
service-account connect raises `ConnectionError` out of the context manager,
which the enclosing `except` turns into a failure. A falsy resolved DN —
`None` or the empty string, per `if not user_dn` — fails closed. The second
phase connects as the resolved DN with the supplied password (through
`connect` and its falsy-argument fallback); the third phase re-opens a
service-account session to fetch the profile. -/
def authenticate_user (w : LDAPWorld) (cfg : Option LDAPConfig)
    (username password : String) : AuthResult :=
  match cfg with
  | none => ⟨false, none, [], []⟩
  | some c =>
    if !c.enabled then ⟨false, none, [], []⟩
    else
      let svcBind := connectAttempt c none none
      if !(w.bind svcBind.1 svcBind.2) then
        ⟨false, none, [svcBind], []⟩
      else
        match find_user_dn w c username with
        | (none, searches) => ⟨false, none, [svcBind], searches⟩
        | (some user_dn, searches) =>
          if user_dn = "" then ⟨false, none, [svcBind], searches⟩
          else
          let userBind := connectAttempt c (some user_dn) (some password)
          if !(w.bind userBind.1 userBind.2) then
            ⟨false, none, [svcBind, userBind], searches⟩
          else
            if !(w.bind svcBind.1 svcBind.2) then
              ⟨false, none, [svcBind, userBind, svcBind], searches⟩
            else
              match get_user_info w c user_dn with
              | some info =>
                  ⟨true, some info, [svcBind, userBind, svcBind],
                    searches ++ [(user_dn, "(objectClass=*)")]⟩
              | none =>
                  ⟨false, none, [svcBind, userBind, svcBind],
                    searches ++ [(user_dn, "(objectClass=*)")]⟩

/-- The `LDAPUser` row. `ldap_username` mirrors the Python value written
into the row, which may be `None`. -/
structure LDAPUser where
  id : String := ""
  ldap_config_id : String := ""
  ldap_dn : String := ""
  ldap_username : Option String := none
  email : Option String := none
  nickname : Option String := none
  first_name : Option String := none
  last_name : Option String := none
  ldap_attributes : List (String × Option String) := []
  is_active : Bool := true
  sync_status : String := "synced"
  last_sync_time : Int := 0
  user_id : Option String := none
deriving DecidableEq, Repr

/-- `LDAPUserService.get_by_dn`: first row of the config with that DN. -/
def get_by_dn (store : List LDAPUser) (config_id dn : String) : Option LDAPUser :=
  store.find? (fun u => u.ldap_config_id == config_id && u.ldap_dn == dn)

/-- `LDAPUserService.get_by_ldap_username`; a `None` argument compares as
SQL NULL, i.e. matches rows whose stored username is `None`. -/
def get_by_ldap_username (store : List LDAPUser) (config_id : String)
    (username : Option String) : Option LDAPUser :=
  store.find? (fun u => u.ldap_config_id == config_id && u.ldap_username == username)

/-- `LDAPUserService.get_by_email`, with the same NULL-comparison rule. -/
def get_by_email (store : List LDAPUser) (config_id : String)
    (email : Option String) : Option LDAPUser :=
  store.find? (fun u => u.ldap_config_id == config_id && u.email == email)

/-- `LDAPUserService.get_by_id`. -/
def get_by_id (store : List LDAPUser) (uid : String) : Option LDAPUser :=
  store.find? (fun u => u.id == uid)

/-- `model.update(...).where(model.id == uid)`: rewrites every row whose id
matches, as the SQL update does. -/
def updateById (store : List LDAPUser) (uid : String) (f : LDAPUser → LDAPUser) :
    List LDAPUser :=
  store.map (fun u => if u.id == uid then f u else u)

/-- The `ldap_data` dict handed to `create_or_update_user`. For the three
keys the source tests with `in`, the outer `Option` models key presence;
for `username` and `email` the inner `Option` is the stored value, which
may itself be `None`. The remaining fields model the result of `.get`,
whose absent and `None` cases coincide. -/
structure LdapData where
  dn : Option String := none
  username : Option (Option String) := none
  email : Option (Option String) := none
  nickname : Option String := none
  first_name : Option String := none
  last_name : Option String := none
  attrs : List (String × Option String) := []
  is_active : Option Bool := none
deriving DecidableEq, Repr

/-- Python `d.get(key)` on a presence-tracked field. -/
def pyGet (x : Option (Option String)) : Option String :=
  x.getD none

/-- The existing-row resolution of `create_or_update_user`: an
`if 'dn' in ldap_data / elif 'username' in / elif 'email' in` chain — the
first key that is present selects the single lookup that is performed. -/
def lookupExisting (store : List LDAPUser) (config_id : String) (d : LdapData) :
    Option LDAPUser :=
  match d.dn with
  | some dn => get_by_dn store config_id dn
  | none =>
    match d.username with
    | some uname => get_by_ldap_username store config_id uname
    | none =>
      match d.email with
      | some em => get_by_email store config_id em
      | none => none

/-- Result of one `create_or_update_user` call: the returned (user, created)
pair plus the store after the call. -/
structure UpsertResult where
  user : Option LDAPUser
  created : Bool
  store : List LDAPUser
deriving DecidableEq, Repr

/-- The field updates applied to an existing row; note `ldap_dn` and
`ldap_username` are not among the updated columns. -/
def applyUpdate (d : LdapData) (now : Int) (u : LDAPUser) : LDAPUser :=
  { u with
    email := pyGet d.email
    nickname := d.nickname
    first_name := d.first_name
    last_name := d.last_name
    ldap_attributes := d.attrs
    is_active := d.is_active.getD true
    last_sync_time := now
    sync_status := "synced" }

/-- The row `create_or_update_user` inserts when no existing row was found.
`ldap_data.get('dn', '')` and `.get('username', '')` default only the
absent-key case; a present `None` value is stored as is. -/
def newUserRow (config_id : String) (d : LdapData) (now : Int) (newId : String) :
    LDAPUser :=
  { id := newId
    ldap_config_id := config_id
    ldap_dn := d.dn.getD ""
    ldap_username := (match d.username with | none => some "" | some v => v)
    email := pyGet d.email
    nickname := d.nickname
    first_name := d.first_name
    last_name := d.last_name
    ldap_attributes := d.attrs
    is_active := d.is_active.getD true
    sync_status := "synced"
    last_sync_time := now
    user_id := none }

/-- `LDAPUserService.create_or_update_user`. `dbFail` models its except
branch (a persistence error), which returns `(None, False)` and leaves the
store unchanged. Otherwise the single lookup selected by key presence
decides between the update and the create path; the update path re-reads
the row by id before returning it. -/
def create_or_update_user (dbFail : Bool) (store : List LDAPUser)
    (config_id : String) (d : LdapData) (now : Int) (newId : String) :
    UpsertResult :=
  if dbFail then ⟨none, false, store⟩
  else
    match lookupExisting store config_id d with
    | some existing =>
      let store2 := updateById store existing.id (applyUpdate d now)
      ⟨get_by_id store2 existing.id, false, store2⟩
    | none =>
      let nu := newUserRow config_id d now newId
      ⟨some nu, true, store ++ [nu]⟩

/-- The row condition of `mark_stale_users`: same config, DN not in the
observed list, currently active. -/
def staleCond (config_id : String) (active_dns : List String) (u : LDAPUser) :
    Bool :=
  u.ldap_config_id == config_id && !(active_dns.contains u.ldap_dn) && u.is_active

/-- `LDAPUserService.mark_stale_users`: one SQL update setting
`is_active=False, sync_status='stale'` on every row satisfying the
condition; returns the new store and the number of rows updated. -/
def mark_stale_users (store : List LDAPUser) (config_id : String)
    (active_dns : List String) : List LDAPUser × Nat :=
  (store.map (fun u =>
      if staleCond config_id active_dns u then
        { u with is_active := false, sync_status := "stale" }
      else u),
   store.countP (staleCond config_id active_dns))

/-- Python truthiness of an optional string. -/
def pyTruthy (x : Option String) : Bool :=
  match x with
  | none => false
  | some s => s != ""

/-- Python `x or y` on optional strings, returning `y` as is when `x` is
falsy. -/
def pyOrOpt (x y : Option String) : Option String :=
  if pyTruthy x then x else y

/-- Python f-string rendering of an optional string (`None` prints as
"None"). -/
def pyShow (x : Option String) : String :=
  match x with
  | none => "None"
  | some s => s

/-- The system `User` row fields `_create_system_user` touches. -/
structure SysUser where
  id : String := ""
  email : String := ""
  nickname : Option String := none
deriving DecidableEq, Repr

/-- `LDAPSyncService._create_system_user`: if the LDAP user has a truthy
email and a system user with that email exists, link to it; otherwise
create a new system user and link to that. Linking writes `user_id` on the
LDAP row by id. Returns the system-user store and the LDAP store after the
call. -/
def create_system_user (sys : List SysUser) (ldapStore : List LDAPUser)
    (u : LDAPUser) (newSysId : String) : List SysUser × List LDAPUser :=
  match (if pyTruthy u.email then sys.find? (fun s => u.email == some s.email)
      else none) with
  | some ex =>
      (sys, updateById ldapStore u.id (fun x => { x with user_id := some ex.id }))
  | none =>
      (sys ++
        [{ id := newSysId
           email := if pyTruthy u.email then u.email.getD ""
                    else pyShow u.ldap_username ++ "@ldap.local"
           nickname := pyOrOpt u.nickname u.ldap_username }],
       updateById ldapStore u.id (fun x => { x with user_id := some newSysId }))

/-- The dict `_get_all_ldap_users` builds for each enumerated entry: all
keys are present; `is_active` is `True`. -/
def entryToData (c : LDAPConfig) (e : LDAPEntry) : LdapData :=
  { dn := some e.entry_dn
    username := some (get_attr_value e (mappedAttr c "username" "uid"))
    email := some (get_attr_value e (mappedAttr c "email" "mail"))
    nickname := get_attr_value e (mappedAttr c "nickname" "displayName")
    first_name := get_attr_value e (mappedAttr c "first_name" "givenName")
    last_name := get_attr_value e (mappedAttr c "last_name" "sn")
    attrs := entryAttributesBag e
    is_active := some true }

/-- `LDAPSyncService._get_all_ldap_users`: one subtree search under the
configured base with the configured filter, projected through the attribute
mapping. -/
def get_all_ldap_users (w : LDAPWorld) (c : LDAPConfig) : List LdapData :=
  (w.search c.search_base c.search_filter).map (entryToData c)

/-- Accumulator of the per-entry loop of `sync_users`. -/
structure SyncAcc where
  users : List LDAPUser
  sys : List SysUser
  active_dns : List String
  created : Nat
  updated : Nat
  errors : Nat
deriving Repr

/-- One iteration of the per-entry loop of `sync_users`: upsert the entry;
on success record its DN as observed and count it as created (running the
auto-provision hook when enabled) or updated; on failure count an error and
continue. The pair carries the entry index, used to draw fresh row ids. -/
def syncStep (w : LDAPWorld) (c : LDAPConfig) (ids sysIds : Nat → String)
    (now : Int) (acc : SyncAcc) (p : Nat × LdapData) : SyncAcc :=
  let d := p.2
  let r := create_or_update_user (w.persistFail (d.dn.getD "")) acc.users c.id d
      now (ids p.1)
  match r.user with
  | none => { acc with errors := acc.errors + 1 }
  | some u =>
    if r.created then
      let su :=
        if c.auto_create_user then create_system_user acc.sys r.store u (sysIds p.1)
        else (acc.sys, r.store)
      { acc with
        users := su.2
        sys := su.1
        active_dns := acc.active_dns ++ [d.dn.getD ""]
        created := acc.created + 1 }
    else
      { acc with
        users := r.store
        active_dns := acc.active_dns ++ [d.dn.getD ""]
        updated := acc.updated + 1 }

/-- The enumeration-and-upsert phase of `sync_users`: the per-entry loop
folded over the enumerated entries. -/
def syncUpsertPhase (w : LDAPWorld) (c : LDAPConfig) (users : List LDAPUser)
    (sys : List SysUser) (ids sysIds : Nat → String) (now : Int) : SyncAcc :=
  (get_all_ldap_users w c).enum.foldl (syncStep w c ids sysIds now)
    ⟨users, sys, [], 0, 0, 0⟩

/-- The stats counters `sync_users` accumulates. -/
structure SyncStats where
  total_found : Nat := 0
  created : Nat := 0
  updated : Nat := 0
  deactivated : Nat := 0
  errors : Nat := 0
deriving DecidableEq, Repr

/-- The stats dict as returned (key order as initialised in the source). -/
def statsDict (s : SyncStats) : List (String × Nat) :=
  [("total_found", s.total_found), ("created", s.created),
   ("updated", s.updated), ("deactivated", s.deactivated),
   ("errors", s.errors)]

/-- Result of `LDAPSyncService.sync_users`: the returned (success, stats)
pair — the stats dict is `[]` on the precondition no-op, mirroring the
returned `{}` — plus the stores after the call and the traces of
sync-status writes `(config_id, status, sync_time)` and bind attempts. -/
structure SyncResult where
  success : Bool
  stats : List (String × Nat)
  users : List LDAPUser
  sys : List SysUser
  statusWrites : List (String × String × Option Int)
  binds : List (String × String)
deriving Repr

/-- `LDAPSyncService.sync_users`. Missing, disabled or sync-disabled
configuration is a no-op returning `(False, {})` before any status write or
connection. Otherwise the status is set to `running`; a failed
service-account connect raises out of the context manager, is caught, sets
the status to `error` and returns the zero-valued stats gathered so far.
On the normal path the entries are enumerated, upserted one by one, the
unobserved rows are marked stale, and the status is set to `completed` with
the sync time stamped. -/
def sync_users (w : LDAPWorld) (cfg : Option LDAPConfig) (users : List LDAPUser)
    (sys : List SysUser) (ids sysIds : Nat → String) (now : Int) : SyncResult :=
  match cfg with
  | none => ⟨false, [], users, sys, [], []⟩
  | some c =>
    if !c.enabled || !c.sync_enabled then ⟨false, [], users, sys, [], []⟩
    else
      let svcBind := connectAttempt c none none
      if !(w.bind svcBind.1 svcBind.2) then
        ⟨false, statsDict {}, users, sys,
          [(c.id, "running", none), (c.id, "error", none)], [svcBind]⟩
      else
        let acc := syncUpsertPhase w c users sys ids sysIds now
        let marked := mark_stale_users acc.users c.id acc.active_dns
        ⟨true,
          statsDict
            { total_found := (get_all_ldap_users w c).length
              created := acc.created
              updated := acc.updated
              deactivated := marked.2
              errors := acc.errors },
          marked.1, acc.sys,
          [(c.id, "running", none), (c.id, "completed", some now)], [svcBind]⟩

/-- `LDAPScheduler._check_and_sync`, restricted to its trigger decision:
returns whether this tick triggers a sync together with the recorded
last-attempt timestamp after the tick (recorded before the sync runs). The
evaluated threshold is `max(config.sync_interval, 30)`. -/
def check_and_sync_triggers (cfg : Option LDAPConfig) (last_sync : Option Int)
    (now : Int) : Bool × Option Int :=
  match cfg with
  | none => (false, last_sync)
  | some c =>
    if !c.enabled || !c.sync_enabled then (false, last_sync)
    else
      match last_sync with
      | none => (true, some now)
      | some t =>
        if now - t ≥ max c.sync_interval 30 then (true, some now)
        else (false, last_sync)

/-- `LDAPConfigService.get_active_config`: the first enabled row. -/
def get_active_config (store : List LDAPConfig) : Option LDAPConfig :=
  store.find? (fun c => c.enabled)

/-- The request body of the `/config` POST endpoint; every field is
optional. -/
structure ConfigReq where
  server_host : Option String := none
  server_port : Option Nat := none
  use_ssl : Option Bool := none
  bind_dn : Option String := none
  bind_password : Option String := none
  search_base : Option String := none
  search_filter : Option String := none
  user_dn_template : Option String := none
  attr_mapping : Option (List (String × String)) := none
  enabled : Option Bool := none
  auto_create_user : Option Bool := none
  sync_enabled : Option Bool := none
  sync_interval : Option Int := none
deriving DecidableEq, Repr

/-- Applying a request to a row: `model.update(**req)` writes exactly the
keys present in the request. -/
def applyReq (c : LDAPConfig) (r : ConfigReq) : LDAPConfig :=
  { c with
    server_host := r.server_host.getD c.server_host
    server_port := r.server_port.getD c.server_port
    use_ssl := r.use_ssl.getD c.use_ssl
    bind_dn := r.bind_dn.getD c.bind_dn
    bind_password := r.bind_password.getD c.bind_password
    search_base := r.search_base.getD c.search_base
    search_filter := r.search_filter.getD c.search_filter
    user_dn_template := r.user_dn_template.getD c.user_dn_template
    attr_mapping := r.attr_mapping.getD c.attr_mapping
    enabled := r.enabled.getD c.enabled
    auto_create_user := r.auto_create_user.getD c.auto_create_user
    sync_enabled := r.sync_enabled.getD c.sync_enabled
    sync_interval := r.sync_interval.getD c.sync_interval }

/-- The row `create_config` inserts: the request fields over the model
column defaults (the schema defaults are a parameter of the embedding).-/
def mkConfig (defaults : LDAPConfig) (r : ConfigReq) (newId : String) :
    LDAPConfig :=
  { applyReq defaults r with id := newId }

/-- The `/config` POST handler `create_or_update_config` (after its
admin-permission guard): `req.get('sync_interval', 30)` below 30 is
rejected with no store change; otherwise the active configuration is
updated in place, or a new one is created when none exists. Returns
(accepted, store). -/
def create_or_update_config (defaults : LDAPConfig) (store : List LDAPConfig)
    (r : ConfigReq) (newId : String) : Bool × List LDAPConfig :=
  if r.sync_interval.getD 30 < 30 then (false, store)
  else
    match get_active_config store with
    | some ex =>
        (true, store.map (fun c => if c.id == ex.id then applyReq c r else c))
    | none => (true, store ++ [mkConfig defaults r newId])

/-! ### Concrete instances used by counterexamples and witnesses -/

/-- A configuration with a DN template, service account `cn=service` with
password `svcpw`. -/
def cfgTemplate : LDAPConfig :=
  { id := "cfg1"
    bind_dn := "cn=service"
    bind_password := "svcpw"
    search_base := "dc=example"
    search_filter := "(objectClass=person)"
    user_dn_template := "uid=\x7busername\x7d,dc=example"
    enabled := true
    sync_enabled := true }

/-- A configuration without a DN template and with a placeholder-free
search filter. -/
def cfgSearch : LDAPConfig :=
  { id := "cfg2"
    bind_dn := "cn=service"
    bind_password := "svcpw"
    search_base := "dc=example"
    search_filter := "(objectClass=person)"
    enabled := true
    sync_enabled := true }

/-- A directory in which every DN binds with the service password and no
other password; searching under the base finds `alice`; BASE-scoped reads
succeed. -/
def worldSvcPw : LDAPWorld :=
  { bind := fun _ pw => pw == "svcpw"
    search := fun _ f => if f == "(uid=alice)" then
        [⟨"uid=alice,dc=example", [("uid", .scalar "alice")]⟩] else []
    search_base_scope := fun dn => [⟨dn, [("uid", .scalar "alice")]⟩]
    persistFail := fun _ => false }

/-- A store row whose username and email match the incoming entry below but
whose DN does not. -/
def c2CexUser : LDAPUser :=
  { id := "u1"
    ldap_config_id := "c"
    ldap_dn := "uid=old,dc=x"
    ldap_username := some "alice"
    email := some "alice@x" }

/-- An incoming entry whose DN matches no row while its username and email
match `c2CexUser`. -/
def c2CexData : LdapData :=
  { dn := some "uid=new,dc=x"
    username := some (some "alice")
    email := some (some "alice@x")
    is_active := some true }

/-- Directory entry for alice. -/
def entryAlice : LDAPEntry :=
  ⟨"uid=alice,dc=example",
   [("uid", .scalar "alice"), ("mail", .scalar "alice@example.com")]⟩

/-- Directory entry for bob. -/
def entryBob : LDAPEntry :=
  ⟨"uid=bob,dc=example", [("uid", .scalar "bob")]⟩

/-- A directory holding alice and bob with a reliable store. -/
def worldSync : LDAPWorld :=
  { bind := fun _ pw => pw == "svcpw"
    search := fun _ _ => [entryAlice, entryBob]
    search_base_scope := fun dn => [⟨dn, []⟩]
    persistFail := fun _ => false }

/-- The same directory with the store failing every upsert of bob. -/
def worldSyncFail : LDAPWorld :=
  { worldSync with persistFail := fun dn => dn == "uid=bob,dc=example" }

/-- The same directory with an unreachable server. -/
def worldNoBind : LDAPWorld :=
  { worldSync with bind := fun _ _ => false }

/-- A fresh-id supply with pairwise distinct values. -/
def idsA : Nat → String := fun n => ⟨List.replicate (n + 1) 'i'⟩

/-- A fresh-id supply for system users. -/
def sysIdsA : Nat → String := fun n => ⟨List.replicate (n + 1) 's'⟩

/-- An existing active row of `cfg2` whose DN the directory no longer
holds. -/
def staleUser : LDAPUser :=
  { id := "u9"
    ldap_config_id := "cfg2"
    ldap_dn := "uid=gone,dc=example"
    ldap_username := some "gone"
    is_active := true }

/-- An existing active row of `cfg2` mirroring bob. -/
def bobUser : LDAPUser :=
  { id := "u8"
    ldap_config_id := "cfg2"
    ldap_dn := "uid=bob,dc=example"
    ldap_username := some "bob"
    is_active := true }

/-- The first row of the config with the given DN is active: the property
the per-entry loop establishes for every successfully upserted entry. -/
def ActiveByDn (store : List LDAPUser) (cid dn : String) : Prop :=
  ∃ v, get_by_dn store cid dn = some v ∧ v.is_active = true

/-- The store invariant between two reconciliation passes over an unchanged
directory: row ids are distinct, every enumerated DN resolves to an active
row, and every active row of the config carries an enumerated DN. -/
def SyncedStore (cid : String) (allDns : List String)
    (store : List LDAPUser) : Prop :=
  (store.map (fun u => u.id)).Nodup ∧
  (∀ dn ∈ allDns, ActiveByDn store cid dn) ∧
  (∀ u ∈ store, u.ldap_config_id = cid → u.is_active = true →
    u.ldap_dn ∈ allDns)

/-- Two consecutive `sync_users` passes over the same configuration, the
second starting from the stores the first produced. -/
def syncTwice (w : LDAPWorld) (cfg : Option LDAPConfig) (users : List LDAPUser)
    (sys : List SysUser) (ids sysIds ids2 sysIds2 : Nat → String)
    (now now2 : Int) : SyncResult :=
  sync_users w cfg (sync_users w cfg users sys ids sysIds now).users
    (sync_users w cfg users sys ids sysIds now).sys ids2 sysIds2 now2

/-! ### Theorems -/

/-- C9: for every username, DN resolution with a DN template configured
formats the template with the username and issues no directory search;
without a template it builds the search filter by trying the positional
placeholder first, then the named placeholder, and otherwise falls back to
an equality filter on the mapped username attribute, returning the DN of
the first matching entry and failing (no DN) when no entry matches. -/
theorem c9_dn_resolution (w : LDAPWorld) (c : LDAPConfig) (username : String) :
    (c.user_dn_template ≠ "" →
      (find_user_dn w c username).2 = [] ∧
      (find_user_dn w c username).1 =
        some (strReplace c.user_dn_template phUsername username)) ∧
    (c.user_dn_template = "" →
      (find_user_dn w c username).2 =
        [(c.search_base,
          if strContains c.search_filter phPositional then
            strReplace c.search_filter phPositional username
          else if strContains c.search_filter phUsername then
            strReplace c.search_filter phUsername username
          else "(" ++ mappedAttr c "username" "uid" ++ "=" ++ username ++ ")")] ∧
      (find_user_dn w c username).1 =
        (w.search c.search_base (effectiveSearchFilter c username)).head?.map
          LDAPEntry.entry_dn ∧
      (w.search c.search_base (effectiveSearchFilter c username) = [] →
        (find_user_dn w c username).1 = none)) := by
  constructor
  · intro h
    have hb : (c.user_dn_template != "") = true := by simpa using h
    simp [find_user_dn, hb]
  · intro h
    have hb : (c.user_dn_template != "") = false := by simp [h]
    refine ⟨?_, ?_, ?_⟩
    · simp [find_user_dn, hb, effectiveSearchFilter]
    · simp [find_user_dn, hb]
    · intro hs
      simp [find_user_dn, hb, hs]

/-- Witness for C9 at concrete inputs: with the template configured no
search is issued; without one the default equality filter finds alice. -/
theorem c9_dn_resolution_witness :
    (find_user_dn worldSvcPw cfgTemplate "alice").2 = [] ∧
    (find_user_dn worldSvcPw cfgSearch "alice").1 = some "uid=alice,dc=example" := by
  refine ⟨((c9_dn_resolution worldSvcPw cfgTemplate "alice").1 (by decide)).1, ?_⟩
  have h := ((c9_dn_resolution worldSvcPw cfgSearch "alice").2 (by decide)).2.1
  exact h.trans (by decide)

/-- C5: a falsy supplied secret (None or empty) makes `connect` attempt the
bind with the configured service-account secret instead; consequently
`authenticate_user` invoked with the empty password performs its
second-phase bind as the resolved user DN with the service-account
password. -/
theorem c5_empty_secret_fallback (w : LDAPWorld) (c : LDAPConfig)
    (dn secret : Option String) (username user_dn : String)
    (hsecret : secret = none ∨ secret = some "")
    (hdn : (find_user_dn w c username).1 = some user_dn) (hne : user_dn ≠ "")
    (hen : c.enabled = true)
    (hsvc : w.bind (pyOrStr none c.bind_dn) (pyOrStr none c.bind_password) = true) :
    connect w c dn secret = w.bind (pyOrStr dn c.bind_dn) c.bind_password ∧
    (authenticate_user w (some c) username "").binds.get? 1 =
      some (user_dn, c.bind_password) := by
  constructor
  · rcases hsecret with h | h <;> subst h <;>
      simp [connect, connectAttempt, pyOrStr]
  · obtain ⟨d, sch, hp⟩ : ∃ d sch, find_user_dn w c username = (d, sch) :=
      ⟨_, _, rfl⟩
    have hd : d = some user_dn := by rw [← hdn, hp]
    subst hd
    have hsvc2 : w.bind c.bind_dn c.bind_password = true := by
      simpa [pyOrStr] using hsvc
    have h3 : pyOrStr none c.bind_dn = c.bind_dn := rfl
    have h4 : pyOrStr none c.bind_password = c.bind_password := rfl
    have hub1 : pyOrStr (some user_dn) c.bind_dn = user_dn := by
      simp [pyOrStr, hne]
    have hub2 : pyOrStr (some "") c.bind_password = c.bind_password := by
      simp [pyOrStr]
    simp only [authenticate_user, hen, hp, connectAttempt, h3, h4, hub1, hub2,
      hsvc2, Bool.not_true, Bool.false_eq_true, if_false, if_neg hne]
    split
    · rfl
    · split <;> rfl

/-- Witness for C5 at concrete inputs: the bind attempted with an empty
secret uses the service-account password, and the second-phase bind pair of
an empty-password authentication is (resolved DN, service password). -/
theorem c5_empty_secret_fallback_witness :
    connect worldSvcPw cfgTemplate (some "uid=alice,dc=example") (some "") =
      worldSvcPw.bind
        (pyOrStr (some "uid=alice,dc=example") cfgTemplate.bind_dn)
        cfgTemplate.bind_password ∧
    (authenticate_user worldSvcPw (some cfgTemplate) "alice" "").binds.get? 1 =
      some ("uid=alice,dc=example", "svcpw") := by
  have h := c5_empty_secret_fallback worldSvcPw cfgTemplate
      (some "uid=alice,dc=example") (some "") "alice" "uid=alice,dc=example"
      (Or.inr rfl) (by decide) (by decide) rfl (by decide)
  exact ⟨h.1, h.2.trans (by decide)⟩

/-- C8: with no configuration, or a disabled one, `authenticate_user` fails
closed with no bind and no search issued; with no configuration, or a
disabled or sync-disabled one, `sync_users` is a no-op failure with empty
stats, no bind attempted, no sync-status write and no store change. -/
theorem c8_fail_closed (w : LDAPWorld) (c : LDAPConfig) (users : List LDAPUser)
    (sys : List SysUser) (ids sysIds : Nat → String) (now : Int)
    (username password : String) :
    authenticate_user w none username password = ⟨false, none, [], []⟩ ∧
    (c.enabled = false →
      authenticate_user w (some c) username password = ⟨false, none, [], []⟩) ∧
    sync_users w none users sys ids sysIds now = ⟨false, [], users, sys, [], []⟩ ∧
    (c.enabled = false ∨ c.sync_enabled = false →
      sync_users w (some c) users sys ids sysIds now =
        ⟨false, [], users, sys, [], []⟩) := by
  refine ⟨rfl, ?_, rfl, ?_⟩
  · intro h
    simp [authenticate_user, h]
  · intro h
    rcases h with h | h <;> simp [sync_users, h]

/-- Witness for C8 at concrete inputs: a disabled configuration short
circuits both operations. -/
theorem c8_fail_closed_witness :
    authenticate_user worldSvcPw (some { cfgTemplate with enabled := false })
        "alice" "pw" = ⟨false, none, [], []⟩ ∧
    sync_users worldSvcPw (some { cfgTemplate with sync_enabled := false })
        [] [] (fun _ => "") (fun _ => "") 0 = ⟨false, [], [], [], [], []⟩ := by
  exact ⟨(c8_fail_closed worldSvcPw { cfgTemplate with enabled := false }
      [] [] (fun _ => "") (fun _ => "") 0 "alice" "pw").2.1 rfl,
    (c8_fail_closed worldSvcPw { cfgTemplate with sync_enabled := false }
      [] [] (fun _ => "") (fun _ => "") 0 "alice" "pw").2.2.2 (Or.inr rfl)⟩

/-- C6: a configuration-update request with a present sync interval below
30 is rejected with the store unchanged; and a scheduler tick that triggers
with a recorded last attempt does so only when at least
`max(configured interval, 30)` — in particular at least 30 — time units
have elapsed. -/
theorem c6_interval_floor (defaults : LDAPConfig) (store : List LDAPConfig)
    (r : ConfigReq) (newId : String) (cfg : Option LDAPConfig)
    (last : Option Int) (now v t : Int) :
    (r.sync_interval = some v → v < 30 →
      create_or_update_config defaults store r newId = (false, store)) ∧
    ((check_and_sync_triggers cfg last now).1 = true → last = some t →
      30 ≤ now - t ∧ ∀ c ∈ cfg, max c.sync_interval 30 ≤ now - t) := by
  constructor
  · intro hv hlt
    simp [create_or_update_config, hv, hlt]
  · intro htrig hlast
    subst hlast
    match cfg with
    | none => simp [check_and_sync_triggers] at htrig
    | some c =>
      simp only [check_and_sync_triggers] at htrig
      by_cases hen : (!c.enabled || !c.sync_enabled) = true
      · simp [hen] at htrig
      · simp only [hen, if_false, Bool.false_eq_true] at htrig
        split at htrig
        · rename_i hge
          refine ⟨le_trans (le_max_right _ _) hge, ?_⟩
          intro c' hc'
          simp only [Option.mem_def, Option.some_inj] at hc'
          subst hc'
          exact hge
        · simp at htrig

/-- Witness for C6 at concrete inputs: interval 10 is rejected, and a tick
that triggers at elapsed 40 with stored interval 10 waited at least 30. -/
theorem c6_interval_floor_witness :
    create_or_update_config {} [] { sync_interval := some 10 } "n" =
      (false, []) ∧
    30 ≤ (40 : Int) - 0 := by
  have h := c6_interval_floor {} ([] : List LDAPConfig)
      { sync_interval := some 10 } "n"
      (some { cfgTemplate with sync_interval := 10 }) (some 0) 40 10 0
  exact ⟨h.1 rfl (by decide), (h.2 (by decide) rfl).1⟩

/-- C1 (amended): for every username and every nonempty password, whenever
DN resolution succeeds, `authenticate_user` succeeds only if the
second-phase bind as the resolved DN with the supplied password succeeds,
and when that bind fails it returns (false, no profile); the password is
never compared locally and the service-account session's success alone
never authenticates. (An empty supplied password instead falls back to the
service-account password inside `connect`, see C5.) -/
theorem c1_two_phase_bind (w : LDAPWorld) (c : LDAPConfig)
    (username password user_dn : String) (hp : password ≠ "")
    (hdn : (find_user_dn w c username).1 = some user_dn) :
    ((authenticate_user w (some c) username password).success = true →
      w.bind user_dn password = true) ∧
    (w.bind user_dn password = false →
      (authenticate_user w (some c) username password).success = false ∧
      (authenticate_user w (some c) username password).profile = none) := by
  obtain ⟨d, sch, hpr⟩ : ∃ d sch, find_user_dn w c username = (d, sch) :=
    ⟨_, _, rfl⟩
  have hd : d = some user_dn := by rw [← hdn, hpr]
  subst hd
  by_cases hne : user_dn = ""
  · subst hne
    have hres : (authenticate_user w (some c) username password).success =
          false ∧
        (authenticate_user w (some c) username password).profile = none := by
      cases hen : c.enabled with
      | false => simp [authenticate_user, hen]
      | true =>
        cases hsvc : w.bind (pyOrStr none c.bind_dn)
            (pyOrStr none c.bind_password) with
        | false =>
          have h3 : pyOrStr none c.bind_dn = c.bind_dn := rfl
          have h4 : pyOrStr none c.bind_password = c.bind_password := rfl
          rw [h3, h4] at hsvc
          simp [authenticate_user, hen, connectAttempt, hsvc, h3, h4]
        | true =>
          have h3 : pyOrStr none c.bind_dn = c.bind_dn := rfl
          have h4 : pyOrStr none c.bind_password = c.bind_password := rfl
          rw [h3, h4] at hsvc
          simp [authenticate_user, hen, hpr, connectAttempt, h3, h4, hsvc]
    constructor
    · intro h
      rw [hres.1] at h
      cases h
    · intro _
      exact hres
  · have hub1 : pyOrStr (some user_dn) c.bind_dn = user_dn := by
      simp [pyOrStr, hne]
    have hub2 : pyOrStr (some password) c.bind_password = password := by
      simp [pyOrStr, hp]
    cases hen : c.enabled with
    | false => simp [authenticate_user, hen]
    | true =>
      cases hsvc : w.bind (pyOrStr none c.bind_dn)
          (pyOrStr none c.bind_password) with
      | false =>
        have h3 : pyOrStr none c.bind_dn = c.bind_dn := rfl
        have h4 : pyOrStr none c.bind_password = c.bind_password := rfl
        rw [h3, h4] at hsvc
        simp [authenticate_user, hen, connectAttempt, hsvc, h3, h4]
      | true =>
        have h3 : pyOrStr none c.bind_dn = c.bind_dn := rfl
        have h4 : pyOrStr none c.bind_password = c.bind_password := rfl
        rw [h3, h4] at hsvc
        cases hu : w.bind user_dn password with
        | false =>
          simp only [authenticate_user, hen, hpr, connectAttempt, h3, h4,
            hub1, hub2, hsvc, hu, hne]
          simp [hne]
        | true => simp [hu]

/-- C1 counterexample: with the empty password, the directory rejects the
bind as the resolved DN with that password, yet `authenticate_user`
succeeds, because `connect` substituted the service-account password. -/
theorem c1_counterexample :
    (find_user_dn worldSvcPw cfgTemplate "alice").1 =
      some "uid=alice,dc=example" ∧
    worldSvcPw.bind "uid=alice,dc=example" "" = false ∧
    (authenticate_user worldSvcPw (some cfgTemplate) "alice" "").success =
      true := by
  decide

/-- Witness for C1 at concrete inputs: with a nonempty wrong password the
directory rejects the user bind and authentication fails with no profile. -/
theorem c1_two_phase_bind_witness :
    (authenticate_user worldSvcPw (some cfgTemplate) "alice" "wrongpw").success
      = false ∧
    (authenticate_user worldSvcPw (some cfgTemplate) "alice" "wrongpw").profile
      = none := by
  exact (c1_two_phase_bind worldSvcPw cfgTemplate "alice" "wrongpw"
    "uid=alice,dc=example" (by decide) (by decide)).2 (by decide)

/-- C2 (amended): the reconciliation upsert selects its single lookup by
key presence — DN key present means only the DN lookup runs, else a present
username key means only the username lookup, else a present email key means
only the email lookup — and a record is created exactly when that one
selected lookup finds nothing; there is no fallback from an unsuccessful
lookup to the next one. -/
theorem c2_lookup_selection (store : List LDAPUser) (config_id : String)
    (d : LdapData) (now : Int) (newId : String) :
    (∀ dn, d.dn = some dn →
      lookupExisting store config_id d = get_by_dn store config_id dn) ∧
    (d.dn = none → ∀ un, d.username = some un →
      lookupExisting store config_id d = get_by_ldap_username store config_id un) ∧
    (d.dn = none → d.username = none → ∀ em, d.email = some em →
      lookupExisting store config_id d = get_by_email store config_id em) ∧
    (create_or_update_user false store config_id d now newId).created =
      (lookupExisting store config_id d).isNone ∧
    (create_or_update_user false store config_id d now newId).store.length =
      (if (lookupExisting store config_id d).isNone then store.length + 1
       else store.length) := by
  refine ⟨?_, ?_, ?_, ?_, ?_⟩
  · intro dn h
    simp [lookupExisting, h]
  · intro h un hu
    simp [lookupExisting, h, hu]
  · intro h hu em he
    simp [lookupExisting, h, hu, he]
  · cases h : lookupExisting store config_id d <;>
      simp [create_or_update_user, h]
  · cases h : lookupExisting store config_id d <;>
      simp [create_or_update_user, h, updateById]

/-- C2 counterexample: the DN lookup finds nothing while the username and
email lookups would each find the existing record, yet the upsert creates a
second record — resolution never falls back past the DN lookup. -/
theorem c2_counterexample :
    get_by_dn [c2CexUser] "c" "uid=new,dc=x" = none ∧
    get_by_ldap_username [c2CexUser] "c" (some "alice") = some c2CexUser ∧
    get_by_email [c2CexUser] "c" (some "alice@x") = some c2CexUser ∧
    (create_or_update_user false [c2CexUser] "c" c2CexData 0 "u2").created =
      true ∧
    (create_or_update_user false [c2CexUser] "c" c2CexData 0 "u2").store.length
      = 2 := by
  decide

/-- Witness for C2 at concrete inputs: with the DN key present the selected
lookup is the DN lookup, and the upsert of `c2CexData` creates. -/
theorem c2_lookup_selection_witness :
    lookupExisting [c2CexUser] "c" c2CexData =
      get_by_dn [c2CexUser] "c" "uid=new,dc=x" ∧
    (create_or_update_user false [c2CexUser] "c" c2CexData 0 "u2").created =
      (lookupExisting [c2CexUser] "c" c2CexData).isNone := by
  exact ⟨(c2_lookup_selection [c2CexUser] "c" c2CexData 0 "u2").1
      "uid=new,dc=x" rfl,
    (c2_lookup_selection [c2CexUser] "c" c2CexData 0 "u2").2.2.2.1⟩

/-! ### Helper lemmas about the upsert loop -/

lemma applyUpdate_id (d : LdapData) (now : Int) (u : LDAPUser) :
    (applyUpdate d now u).id = u.id := rfl

lemma newUserRow_id (cid : String) (d : LdapData) (now : Int) (nid : String) :
    (newUserRow cid d now nid).id = nid := rfl

lemma get_by_dn_mem {store : List LDAPUser} {cid dn : String} {u : LDAPUser}
    (h : get_by_dn store cid dn = some u) : u ∈ store :=
  List.mem_of_find?_eq_some h

lemma get_by_dn_props {store : List LDAPUser} {cid dn : String} {u : LDAPUser}
    (h : get_by_dn store cid dn = some u) :
    u.ldap_config_id = cid ∧ u.ldap_dn = dn := by
  have := List.find?_some h
  simpa using this

lemma lookupExisting_mem {store : List LDAPUser} {cid : String} {d : LdapData}
    {u : LDAPUser} (h : lookupExisting store cid d = some u) : u ∈ store := by
  unfold lookupExisting at h
  split at h
  · exact List.mem_of_find?_eq_some h
  · split at h
    · exact List.mem_of_find?_eq_some h
    · split at h
      · exact List.mem_of_find?_eq_some h
      · cases h

lemma get_by_id_isSome_updateById {store : List LDAPUser} {u : LDAPUser}
    (f : LDAPUser → LDAPUser) (hf : ∀ x, (f x).id = x.id) (hm : u ∈ store) :
    (get_by_id (updateById store u.id f) u.id).isSome := by
  induction store with
  | nil => cases hm
  | cons a l ih =>
    by_cases ha : (a.id == u.id) = true
    · have h1 : updateById (a :: l) u.id f = f a :: updateById l u.id f := by
        simp only [updateById, List.map_cons, if_pos ha]
      rw [h1]
      unfold get_by_id
      rw [List.find?_cons_of_pos _ (by rw [hf a]; exact ha)]
      rfl
    · have hm' : u ∈ l := by
        rcases List.mem_cons.1 hm with rfl | h
        · exact absurd (by simp) ha
        · exact h
      have h1 : updateById (a :: l) u.id f = a :: updateById l u.id f := by
        simp only [updateById, List.map_cons, if_neg ha]
      rw [h1]
      unfold get_by_id
      rw [@List.find?_cons_of_neg _ (fun x => x.id == u.id) a
        (updateById l u.id f) ha]
      exact ih hm'

lemma upsert_user_isSome (store : List LDAPUser) (cid : String) (d : LdapData)
    (now : Int) (newId : String) :
    (create_or_update_user false store cid d now newId).user.isSome := by
  unfold create_or_update_user
  simp only [Bool.false_eq_true, if_false]
  cases h : lookupExisting store cid d with
  | none => simp
  | some ex =>
    simpa using get_by_id_isSome_updateById (applyUpdate d now)
      (applyUpdate_id d now) (lookupExisting_mem h)

lemma syncStep_fail (w : LDAPWorld) (c : LDAPConfig) (ids sysIds : Nat → String)
    (now : Int) (acc : SyncAcc) (p : Nat × LdapData)
    (hpf : w.persistFail (p.2.dn.getD "") = true) :
    syncStep w c ids sysIds now acc p = { acc with errors := acc.errors + 1 } := by
  simp [syncStep, create_or_update_user, hpf]

lemma syncStep_update (w : LDAPWorld) (c : LDAPConfig) (ids sysIds : Nat → String)
    (now : Int) (acc : SyncAcc) (p : Nat × LdapData) (ex : LDAPUser)
    (hpf : w.persistFail (p.2.dn.getD "") = false)
    (hl : lookupExisting acc.users c.id p.2 = some ex) :
    syncStep w c ids sysIds now acc p =
      { acc with
        users := updateById acc.users ex.id (applyUpdate p.2 now)
        active_dns := acc.active_dns ++ [p.2.dn.getD ""]
        updated := acc.updated + 1 } := by
  have hs : (get_by_id (updateById acc.users ex.id (applyUpdate p.2 now))
      ex.id).isSome :=
    get_by_id_isSome_updateById (applyUpdate p.2 now) (applyUpdate_id p.2 now)
      (lookupExisting_mem hl)
  obtain ⟨u, hu⟩ := Option.isSome_iff_exists.1 hs
  simp [syncStep, create_or_update_user, hpf, hl, hu]

lemma syncStep_create (w : LDAPWorld) (c : LDAPConfig) (ids sysIds : Nat → String)
    (now : Int) (acc : SyncAcc) (p : Nat × LdapData)
    (hpf : w.persistFail (p.2.dn.getD "") = false)
    (hl : lookupExisting acc.users c.id p.2 = none) :
    syncStep w c ids sysIds now acc p =
      { acc with
        users :=
          if c.auto_create_user then
            (create_system_user acc.sys
              (acc.users ++ [newUserRow c.id p.2 now (ids p.1)])
              (newUserRow c.id p.2 now (ids p.1)) (sysIds p.1)).2
          else acc.users ++ [newUserRow c.id p.2 now (ids p.1)]
        sys :=
          if c.auto_create_user then
            (create_system_user acc.sys
              (acc.users ++ [newUserRow c.id p.2 now (ids p.1)])
              (newUserRow c.id p.2 now (ids p.1)) (sysIds p.1)).1
          else acc.sys
        active_dns := acc.active_dns ++ [p.2.dn.getD ""]
        created := acc.created + 1 } := by
  by_cases hac : c.auto_create_user = true <;>
    simp [syncStep, create_or_update_user, hpf, hl, hac]

lemma syncFold_counts (w : LDAPWorld) (c : LDAPConfig) (ids sysIds : Nat → String)
    (now : Int) (l : List (Nat × LdapData)) (acc : SyncAcc) :
    (l.foldl (syncStep w c ids sysIds now) acc).created +
        (l.foldl (syncStep w c ids sysIds now) acc).updated +
        (l.foldl (syncStep w c ids sysIds now) acc).errors =
      acc.created + acc.updated + acc.errors + l.length ∧
    (l.foldl (syncStep w c ids sysIds now) acc).errors =
      acc.errors + l.countP (fun p => w.persistFail (p.2.dn.getD "")) := by
  induction l generalizing acc with
  | nil => simp
  | cons p rest ih =>
    rw [List.foldl_cons]
    cases hpf : w.persistFail (p.2.dn.getD "") with
    | true =>
      rw [syncStep_fail w c ids sysIds now acc p hpf]
      obtain ⟨h1, h2⟩ := ih { acc with errors := acc.errors + 1 }
      refine ⟨h1.trans (by simp; omega), h2.trans ?_⟩
      simp [List.countP_cons, hpf]
      omega
    | false =>
      cases hl : lookupExisting acc.users c.id p.2 with
      | some ex =>
        rw [syncStep_update w c ids sysIds now acc p ex hpf hl]
        obtain ⟨h1, h2⟩ := ih { acc with
          users := updateById acc.users ex.id (applyUpdate p.2 now)
          active_dns := acc.active_dns ++ [p.2.dn.getD ""]
          updated := acc.updated + 1 }
        refine ⟨h1.trans (by simp; omega), h2.trans ?_⟩
        simp [List.countP_cons, hpf]
      | none =>
        rw [syncStep_create w c ids sysIds now acc p hpf hl]
        obtain ⟨h1, h2⟩ := ih { acc with
          users :=
            if c.auto_create_user then
              (create_system_user acc.sys
                (acc.users ++ [newUserRow c.id p.2 now (ids p.1)])
                (newUserRow c.id p.2 now (ids p.1)) (sysIds p.1)).2
            else acc.users ++ [newUserRow c.id p.2 now (ids p.1)]
          sys :=
            if c.auto_create_user then
              (create_system_user acc.sys
                (acc.users ++ [newUserRow c.id p.2 now (ids p.1)])
                (newUserRow c.id p.2 now (ids p.1)) (sysIds p.1)).1
            else acc.sys
          active_dns := acc.active_dns ++ [p.2.dn.getD ""]
          created := acc.created + 1 }
        refine ⟨h1.trans (by simp; omega), h2.trans ?_⟩
        simp [List.countP_cons, hpf]

lemma countP_enumFrom (q : LdapData → Bool) (l : List LdapData) (n : Nat) :
    (List.enumFrom n l).countP (fun p => q p.2) = l.countP q := by
  induction l generalizing n with
  | nil => rfl
  | cons a t ih => simp [List.enumFrom, List.countP_cons, ih]

lemma countP_enum (q : LdapData → Bool) (l : List LdapData) :
    l.enum.countP (fun p => q p.2) = l.countP q :=
  countP_enumFrom q l 0

lemma sync_users_run (w : LDAPWorld) (c : LDAPConfig) (users : List LDAPUser)
    (sys : List SysUser) (ids sysIds : Nat → String) (now : Int)
    (hen : c.enabled = true) (hs : c.sync_enabled = true)
    (hconn : w.bind (connectAttempt c none none).1
      (connectAttempt c none none).2 = true) :
    sync_users w (some c) users sys ids sysIds now =
      ⟨true,
        statsDict
          { total_found := (get_all_ldap_users w c).length
            created := (syncUpsertPhase w c users sys ids sysIds now).created
            updated := (syncUpsertPhase w c users sys ids sysIds now).updated
            deactivated :=
              (mark_stale_users (syncUpsertPhase w c users sys ids sysIds now).users
                c.id (syncUpsertPhase w c users sys ids sysIds now).active_dns).2
            errors := (syncUpsertPhase w c users sys ids sysIds now).errors },
        (mark_stale_users (syncUpsertPhase w c users sys ids sysIds now).users
          c.id (syncUpsertPhase w c users sys ids sysIds now).active_dns).1,
        (syncUpsertPhase w c users sys ids sysIds now).sys,
        [(c.id, "running", none), (c.id, "completed", some now)],
        [connectAttempt c none none]⟩ := by
  simp [sync_users, hen, hs, hconn]

lemma sync_users_connfail (w : LDAPWorld) (c : LDAPConfig) (users : List LDAPUser)
    (sys : List SysUser) (ids sysIds : Nat → String) (now : Int)
    (hen : c.enabled = true) (hs : c.sync_enabled = true)
    (hconn : w.bind (connectAttempt c none none).1
      (connectAttempt c none none).2 = false) :
    sync_users w (some c) users sys ids sysIds now =
      ⟨false, statsDict {}, users, sys,
        [(c.id, "running", none), (c.id, "error", none)],
        [connectAttempt c none none]⟩ := by
  simp [sync_users, hen, hs, hconn]

lemma statsDict_lookup_created (s : SyncStats) :
    (statsDict s).lookup "created" = some s.created := rfl

lemma statsDict_lookup_updated (s : SyncStats) :
    (statsDict s).lookup "updated" = some s.updated := rfl

lemma statsDict_lookup_deactivated (s : SyncStats) :
    (statsDict s).lookup "deactivated" = some s.deactivated := rfl

lemma statsDict_lookup_errors (s : SyncStats) :
    (statsDict s).lookup "errors" = some s.errors := rfl

lemma statsDict_lookup_total_found (s : SyncStats) :
    (statsDict s).lookup "total_found" = some s.total_found := rfl

/-- C7: during a sync pass every per-entry upsert failure increments the
errors stat while the pass continues (created + updated + errors exhausts
the enumerated entries); a failure escaping to the top (the connection
setup) sets sync-status to error and returns success=false with the stats
gathered so far; normal completion sets status completed and stamps the
sync time. -/
theorem c7_error_isolation (w : LDAPWorld) (c : LDAPConfig)
    (users : List LDAPUser) (sys : List SysUser) (ids sysIds : Nat → String)
    (now : Int) (hen : c.enabled = true) (hs : c.sync_enabled = true) :
    (w.bind (connectAttempt c none none).1 (connectAttempt c none none).2 =
        false →
      (sync_users w (some c) users sys ids sysIds now).success = false ∧
      (sync_users w (some c) users sys ids sysIds now).stats = statsDict {} ∧
      (sync_users w (some c) users sys ids sysIds now).statusWrites =
        [(c.id, "running", none), (c.id, "error", none)] ∧
      (sync_users w (some c) users sys ids sysIds now).users = users) ∧
    (w.bind (connectAttempt c none none).1 (connectAttempt c none none).2 =
        true →
      (sync_users w (some c) users sys ids sysIds now).success = true ∧
      (sync_users w (some c) users sys ids sysIds now).statusWrites =
        [(c.id, "running", none), (c.id, "completed", some now)] ∧
      (sync_users w (some c) users sys ids sysIds now).stats.lookup "errors" =
        some ((get_all_ldap_users w c).countP
          (fun d => w.persistFail (d.dn.getD ""))) ∧
      ((sync_users w (some c) users sys ids sysIds now).stats.lookup
            "created").getD 0 +
          ((sync_users w (some c) users sys ids sysIds now).stats.lookup
            "updated").getD 0 +
          ((sync_users w (some c) users sys ids sysIds now).stats.lookup
            "errors").getD 0 =
        (get_all_ldap_users w c).length ∧
      (sync_users w (some c) users sys ids sysIds now).stats.lookup
        "total_found" = some (get_all_ldap_users w c).length) := by
  constructor
  · intro hconn
    rw [sync_users_connfail w c users sys ids sysIds now hen hs hconn]
    exact ⟨rfl, rfl, rfl, rfl⟩
  · intro hconn
    rw [sync_users_run w c users sys ids sysIds now hen hs hconn]
    have hc := syncFold_counts w c ids sysIds now (get_all_ldap_users w c).enum
      ⟨users, sys, [], 0, 0, 0⟩
    refine ⟨rfl, rfl, ?_, ?_, rfl⟩
    · show some (syncUpsertPhase w c users sys ids sysIds now).errors =
        some ((get_all_ldap_users w c).countP
          (fun d => w.persistFail (d.dn.getD "")))
      unfold syncUpsertPhase
      rw [hc.2]
      refine congrArg some ?_
      have h2 := countP_enum (fun d => w.persistFail (d.dn.getD ""))
        (get_all_ldap_users w c)
      simpa using h2
    · show (syncUpsertPhase w c users sys ids sysIds now).created +
          (syncUpsertPhase w c users sys ids sysIds now).updated +
          (syncUpsertPhase w c users sys ids sysIds now).errors =
        (get_all_ldap_users w c).length
      unfold syncUpsertPhase
      have h1 := hc.1
      simp only [List.enum_length] at h1
      simpa using h1

/-- Witness for C7 at concrete inputs: an unreachable server flips the
status to error; a store failing on bob yields one counted error while the
pass completes. -/
theorem c7_error_isolation_witness :
    (sync_users worldNoBind (some cfgSearch) [] [] idsA sysIdsA 0).statusWrites
      = [("cfg2", "running", none), ("cfg2", "error", none)] ∧
    (sync_users worldSyncFail (some cfgSearch) [] [] idsA sysIdsA 0).stats.lookup
      "errors" = some 1 ∧
    (sync_users worldSyncFail (some cfgSearch) [] [] idsA sysIdsA 0).success =
      true := by
  have h1 := (c7_error_isolation worldNoBind cfgSearch [] [] idsA sysIdsA 0
    rfl rfl).1 (by decide)
  have h2 := (c7_error_isolation worldSyncFail cfgSearch [] [] idsA sysIdsA 0
    rfl rfl).2 (by decide)
  exact ⟨h1.2.2.1.trans (by decide), h2.2.2.1.trans (by decide), h2.1⟩

lemma staleCond_iff (cid : String) (dns : List String) (u : LDAPUser) :
    staleCond cid dns u = true ↔
      (u.ldap_config_id = cid ∧ u.ldap_dn ∉ dns ∧ u.is_active = true) := by
  simp [staleCond, List.elem_iff, and_assoc]

lemma mark_stale_mem_of_cond {store : List LDAPUser} {cid : String}
    {dns : List String} {u : LDAPUser} (hm : u ∈ store)
    (hc : staleCond cid dns u = true) :
    { u with is_active := false, sync_status := "stale" } ∈
      (mark_stale_users store cid dns).1 := by
  unfold mark_stale_users
  exact List.mem_map.2 ⟨u, hm, by rw [if_pos hc]⟩

lemma mark_stale_mem_of_not_cond {store : List LDAPUser} {cid : String}
    {dns : List String} {u : LDAPUser} (hm : u ∈ store)
    (hc : staleCond cid dns u = false) :
    u ∈ (mark_stale_users store cid dns).1 := by
  unfold mark_stale_users
  exact List.mem_map.2 ⟨u, hm, by rw [if_neg (by simp [hc])]⟩

lemma mark_stale_length (store : List LDAPUser) (cid : String)
    (dns : List String) :
    (mark_stale_users store cid dns).1.length = store.length := by
  simp [mark_stale_users]

/-- C3: on a completed pass, exactly the rows of the config whose DN is not
in the observed set and that are currently active are turned into
(inactive, stale) rows; rows failing the condition pass through unchanged;
nothing is deleted (the store keeps its length); and the deactivated stat
is the number of rows satisfying the condition. -/
theorem c3_staleness (w : LDAPWorld) (c : LDAPConfig) (users : List LDAPUser)
    (sys : List SysUser) (ids sysIds : Nat → String) (now : Int)
    (hen : c.enabled = true) (hs : c.sync_enabled = true)
    (hconn : w.bind (connectAttempt c none none).1
      (connectAttempt c none none).2 = true) :
    (sync_users w (some c) users sys ids sysIds now).users =
      (mark_stale_users (syncUpsertPhase w c users sys ids sysIds now).users
        c.id (syncUpsertPhase w c users sys ids sysIds now).active_dns).1 ∧
    (sync_users w (some c) users sys ids sysIds now).users.length =
      (syncUpsertPhase w c users sys ids sysIds now).users.length ∧
    (sync_users w (some c) users sys ids sysIds now).stats.lookup
        "deactivated" =
      some ((syncUpsertPhase w c users sys ids sysIds now).users.countP
        (staleCond c.id (syncUpsertPhase w c users sys ids sysIds now).active_dns)) ∧
    (∀ u ∈ (syncUpsertPhase w c users sys ids sysIds now).users,
      u.ldap_config_id = c.id →
      u.ldap_dn ∉ (syncUpsertPhase w c users sys ids sysIds now).active_dns →
      u.is_active = true →
      { u with is_active := false, sync_status := "stale" } ∈
        (sync_users w (some c) users sys ids sysIds now).users) ∧
    (∀ u ∈ (syncUpsertPhase w c users sys ids sysIds now).users,
      ¬(u.ldap_config_id = c.id ∧
        u.ldap_dn ∉ (syncUpsertPhase w c users sys ids sysIds now).active_dns ∧
        u.is_active = true) →
      u ∈ (sync_users w (some c) users sys ids sysIds now).users) := by
  rw [sync_users_run w c users sys ids sysIds now hen hs hconn]
  refine ⟨rfl, mark_stale_length _ _ _, rfl, ?_, ?_⟩
  · intro u hm h1 h2 h3
    exact mark_stale_mem_of_cond hm
      ((staleCond_iff _ _ _).2 ⟨h1, h2, h3⟩)
  · intro u hm hnot
    refine mark_stale_mem_of_not_cond hm ?_
    cases hsc : staleCond c.id
        (syncUpsertPhase w c users sys ids sysIds now).active_dns u with
    | false => rfl
    | true => exact absurd ((staleCond_iff _ _ _).1 hsc) hnot

/-- Witness for C3 at concrete inputs: syncing alice and bob over a store
holding an unobserved active row marks exactly that row stale. -/
theorem c3_staleness_witness :
    (sync_users worldSync (some cfgSearch) [staleUser] [] idsA sysIdsA 0).users.length
      = (syncUpsertPhase worldSync cfgSearch [staleUser] [] idsA sysIdsA 0).users.length ∧
    { staleUser with is_active := false, sync_status := "stale" } ∈
      (sync_users worldSync (some cfgSearch) [staleUser] [] idsA sysIdsA 0).users := by
  have h := c3_staleness worldSync cfgSearch [staleUser] [] idsA sysIdsA 0
    rfl rfl (by decide)
  refine ⟨h.2.1, h.2.2.2.1 staleUser ?_ (by decide) (by decide) (by decide)⟩
  decide

lemma lookupExisting_dn {store : List LDAPUser} {cid : String} {d : LdapData}
    {dn0 : String} (h : d.dn = some dn0) :
    lookupExisting store cid d = get_by_dn store cid dn0 := by
  simp [lookupExisting, h]

lemma updateById_map_id (l : List LDAPUser) (uid : String)
    (f : LDAPUser → LDAPUser) (hf : ∀ x, (f x).id = x.id) :
    (updateById l uid f).map (fun u => u.id) = l.map (fun u => u.id) := by
  unfold updateById
  rw [List.map_map]
  refine List.map_eq_map_iff.mpr ?_
  intro x _
  by_cases hx : x.id = uid <;> simp [hx, hf x]

lemma create_system_user_map_id (sys : List SysUser) (ldapStore : List LDAPUser)
    (u : LDAPUser) (nid : String) :
    ((create_system_user sys ldapStore u nid).2).map (fun x => x.id) =
      ldapStore.map (fun x => x.id) := by
  unfold create_system_user
  split <;> exact updateById_map_id _ _ _ (fun x => rfl)

lemma mem_create_system_user_store {sys : List SysUser}
    {ldapStore : List LDAPUser} {u v : LDAPUser} {nid : String}
    (hm : v ∈ ldapStore) (hne : ¬(v.id == u.id) = true) :
    v ∈ (create_system_user sys ldapStore u nid).2 := by
  unfold create_system_user
  split <;> exact List.mem_map.2 ⟨v, hm, by simp [hne]⟩

lemma syncStep_ids (w : LDAPWorld) (c : LDAPConfig) (ids sysIds : Nat → String)
    (now : Int) (acc : SyncAcc) (p : Nat × LdapData) :
    ((syncStep w c ids sysIds now acc p).users).map (fun u => u.id) =
        acc.users.map (fun u => u.id) ∨
    ((syncStep w c ids sysIds now acc p).users).map (fun u => u.id) =
        acc.users.map (fun u => u.id) ++ [ids p.1] := by
  cases hpf : w.persistFail (p.2.dn.getD "") with
  | true =>
    left
    rw [syncStep_fail w c ids sysIds now acc p hpf]
  | false =>
    cases hl : lookupExisting acc.users c.id p.2 with
    | some ex =>
      left
      rw [syncStep_update w c ids sysIds now acc p ex hpf hl]
      exact updateById_map_id _ _ _ (applyUpdate_id p.2 now)
    | none =>
      right
      rw [syncStep_create w c ids sysIds now acc p hpf hl]
      by_cases hac : c.auto_create_user = true
      · simp only [hac, if_true]
        rw [create_system_user_map_id]
        simp [newUserRow_id]
      · simp [hac, newUserRow_id]

lemma syncStep_preserves_row (w : LDAPWorld) (c : LDAPConfig)
    (ids sysIds : Nat → String) (now : Int) (acc : SyncAcc) (p : Nat × LdapData)
    (u : LDAPUser) (hm : u ∈ acc.users)
    (hn : (acc.users.map (fun x => x.id)).Nodup)
    (hdd : p.2.dn.isSome)
    (hdn : u.ldap_dn ≠ p.2.dn.getD "" ∨ w.persistFail (p.2.dn.getD "") = true)
    (hfr : ids p.1 ∉ acc.users.map (fun x => x.id)) :
    u ∈ (syncStep w c ids sysIds now acc p).users := by
  cases hpf : w.persistFail (p.2.dn.getD "") with
  | true =>
    rw [syncStep_fail w c ids sysIds now acc p hpf]
    exact hm
  | false =>
    obtain ⟨dn0, hdn0⟩ := Option.isSome_iff_exists.1 hdd
    have hgd : p.2.dn.getD "" = dn0 := by rw [hdn0]; rfl
    have hne : u.ldap_dn ≠ dn0 := by
      rcases hdn with h | h
      · rw [hgd] at h; exact h
      · rw [hpf] at h; cases h
    cases hl : lookupExisting acc.users c.id p.2 with
    | some ex =>
      rw [syncStep_update w c ids sysIds now acc p ex hpf hl]
      have hlx : get_by_dn acc.users c.id dn0 = some ex := by
        rw [← lookupExisting_dn hdn0]; exact hl
      have hexdn : ex.ldap_dn = dn0 := (get_by_dn_props hlx).2
      have hexmem : ex ∈ acc.users := lookupExisting_mem hl
      have hidne : ¬(u.id == ex.id) = true := by
        intro hid
        have heq : u = ex :=
          List.inj_on_of_nodup_map hn hm hexmem (by simpa using hid)
        rw [heq, hexdn] at hne
        exact hne rfl
      exact List.mem_map.2 ⟨u, hm, by simp [hidne]⟩
    | none =>
      rw [syncStep_create w c ids sysIds now acc p hpf hl]
      have hnid : ¬(u.id == (newUserRow c.id p.2 now (ids p.1)).id) = true := by
        intro h
        have hid : u.id = ids p.1 := by simpa using h
        exact hfr (hid ▸ List.mem_map_of_mem (fun x => x.id) hm)
      have hu1 : u ∈ acc.users ++ [newUserRow c.id p.2 now (ids p.1)] :=
        List.mem_append_left _ hm
      by_cases hac : c.auto_create_user = true
      · simp only [hac, if_true]
        exact mem_create_system_user_store hu1 hnid
      · simp only [hac, if_false, Bool.false_eq_true]
        exact hu1

lemma syncFold_nodup (w : LDAPWorld) (c : LDAPConfig) (ids sysIds : Nat → String)
    (now : Int) (l : List (Nat × LdapData)) (acc : SyncAcc)
    (hn : (acc.users.map (fun x => x.id)).Nodup)
    (hfresh : ∀ p ∈ l, ids p.1 ∉ acc.users.map (fun x => x.id))
    (hinj : ∀ p ∈ l, ∀ q ∈ l, ids p.1 = ids q.1 → p.1 = q.1)
    (hfst : (l.map Prod.fst).Nodup) :
    (((l.foldl (syncStep w c ids sysIds now) acc).users).map
      (fun x => x.id)).Nodup := by
  induction l generalizing acc with
  | nil => exact hn
  | cons p rest ih =>
    rw [List.foldl_cons]
    have hfr_p := hfresh p (List.mem_cons_self p rest)
    rcases syncStep_ids w c ids sysIds now acc p with hid | hid
    · refine ih (syncStep w c ids sysIds now acc p) (by rw [hid]; exact hn)
        ?_ ?_ ?_
      · intro q hq
        rw [hid]
        exact hfresh q (List.mem_cons_of_mem p hq)
      · intro q hq r hr
        exact hinj q (List.mem_cons_of_mem p hq) r (List.mem_cons_of_mem p hr)
      · exact (List.nodup_cons.1 hfst).2
    · have hn' : (((syncStep w c ids sysIds now acc p).users).map
          (fun x => x.id)).Nodup := by
        rw [hid, List.nodup_append]
        refine ⟨hn, List.nodup_singleton _, ?_⟩
        intro b hb hba
        simp only [List.mem_singleton] at hba
        subst hba
        exact hfr_p hb
      refine ih (syncStep w c ids sysIds now acc p) hn' ?_ ?_ ?_
      · intro q hq
        rw [hid]
        simp only [List.mem_append, List.mem_singleton]
        rintro (h | h)
        · exact hfresh q (List.mem_cons_of_mem p hq) h
        · have hq1 : q.1 = p.1 :=
            hinj q (List.mem_cons_of_mem p hq) p (List.mem_cons_self p rest) h
          exact (List.nodup_cons.1 hfst).1
            (hq1 ▸ List.mem_map_of_mem Prod.fst hq)
      · intro q hq r hr
        exact hinj q (List.mem_cons_of_mem p hq) r (List.mem_cons_of_mem p hr)
      · exact (List.nodup_cons.1 hfst).2

lemma syncFold_keeps_row (w : LDAPWorld) (c : LDAPConfig)
    (ids sysIds : Nat → String) (now : Int) (l : List (Nat × LdapData))
    (acc : SyncAcc) (u : LDAPUser) (hm : u ∈ acc.users)
    (hn : (acc.users.map (fun x => x.id)).Nodup)
    (hfresh : ∀ p ∈ l, ids p.1 ∉ acc.users.map (fun x => x.id))
    (hinj : ∀ p ∈ l, ∀ q ∈ l, ids p.1 = ids q.1 → p.1 = q.1)
    (hfst : (l.map Prod.fst).Nodup)
    (hl : ∀ p ∈ l, p.2.dn.isSome ∧
      (u.ldap_dn ≠ p.2.dn.getD "" ∨ w.persistFail (p.2.dn.getD "") = true)) :
    u ∈ (l.foldl (syncStep w c ids sysIds now) acc).users := by
  induction l generalizing acc with
  | nil => exact hm
  | cons p rest ih =>
    rw [List.foldl_cons]
    have hp := hl p (List.mem_cons_self p rest)
    have hfr_p := hfresh p (List.mem_cons_self p rest)
    have hm' : u ∈ (syncStep w c ids sysIds now acc p).users :=
      syncStep_preserves_row w c ids sysIds now acc p u hm hn hp.1 hp.2 hfr_p
    have hstep := syncStep_ids w c ids sysIds now acc p
    rcases hstep with hid | hid
    · refine ih (syncStep w c ids sysIds now acc p) hm' (by rw [hid]; exact hn)
        ?_ ?_ ?_ ?_
      · intro q hq
        rw [hid]
        exact hfresh q (List.mem_cons_of_mem p hq)
      · intro q hq r hr
        exact hinj q (List.mem_cons_of_mem p hq) r (List.mem_cons_of_mem p hr)
      · exact (List.nodup_cons.1 hfst).2
      · intro q hq
        exact hl q (List.mem_cons_of_mem p hq)
    · have hn' : (((syncStep w c ids sysIds now acc p).users).map
          (fun x => x.id)).Nodup := by
        rw [hid, List.nodup_append]
        refine ⟨hn, List.nodup_singleton _, ?_⟩
        intro b hb hba
        simp only [List.mem_singleton] at hba
        subst hba
        exact hfr_p hb
      refine ih (syncStep w c ids sysIds now acc p) hm' hn' ?_ ?_ ?_ ?_
      · intro q hq
        rw [hid]
        simp only [List.mem_append, List.mem_singleton]
        rintro (h | h)
        · exact hfresh q (List.mem_cons_of_mem p hq) h
        · have hq1 : q.1 = p.1 :=
            hinj q (List.mem_cons_of_mem p hq) p (List.mem_cons_self p rest) h
          exact (List.nodup_cons.1 hfst).1
            (hq1 ▸ List.mem_map_of_mem Prod.fst hq)
      · intro q hq r hr
        exact hinj q (List.mem_cons_of_mem p hq) r (List.mem_cons_of_mem p hr)
      · exact (List.nodup_cons.1 hfst).2
      · intro q hq
        exact hl q (List.mem_cons_of_mem p hq)

lemma syncFold_active_dns (w : LDAPWorld) (c : LDAPConfig)
    (ids sysIds : Nat → String) (now : Int) (l : List (Nat × LdapData))
    (acc : SyncAcc) :
    (l.foldl (syncStep w c ids sysIds now) acc).active_dns =
      acc.active_dns ++
        (l.filter (fun p => !w.persistFail (p.2.dn.getD ""))).map
          (fun p => p.2.dn.getD "") := by
  induction l generalizing acc with
  | nil => simp
  | cons p rest ih =>
    rw [List.foldl_cons]
    cases hpf : w.persistFail (p.2.dn.getD "") with
    | true =>
      rw [syncStep_fail w c ids sysIds now acc p hpf, ih]
      simp [List.filter_cons, hpf]
    | false =>
      cases hl : lookupExisting acc.users c.id p.2 with
      | some ex =>
        rw [syncStep_update w c ids sysIds now acc p ex hpf hl, ih]
        simp [List.filter_cons, hpf]
      | none =>
        rw [syncStep_create w c ids sysIds now acc p hpf hl, ih]
        simp [List.filter_cons, hpf]

lemma mem_enumFrom_facts {α : Type} {p : Nat × α} {n : Nat} {l : List α}
    (h : p ∈ List.enumFrom n l) : n ≤ p.1 ∧ p.1 < n + l.length ∧ p.2 ∈ l := by
  induction l generalizing n with
  | nil => cases h
  | cons a t ih =>
    rcases List.mem_cons.1 h with rfl | hmem
    · simp
    · obtain ⟨h1, h2, h3⟩ := ih hmem
      refine ⟨by omega, by simp; omega, List.mem_cons_of_mem a h3⟩

lemma mem_enum_facts {α : Type} {p : Nat × α} {l : List α} (h : p ∈ l.enum) :
    p.1 < l.length ∧ p.2 ∈ l := by
  have h0 : p ∈ List.enumFrom 0 l := h
  obtain ⟨_, h2, h3⟩ := mem_enumFrom_facts h0
  exact ⟨by omega, h3⟩

lemma get_all_dn_isSome {w : LDAPWorld} {c : LDAPConfig} {d : LdapData}
    (h : d ∈ get_all_ldap_users w c) :
    d.dn.isSome ∧ d.is_active = some true := by
  obtain ⟨e, _, rfl⟩ := List.mem_map.1 h
  exact ⟨rfl, rfl⟩

/-- C10: a DN enters the observed set only when its upsert succeeds, so an
entry whose upsert fails leaves its DN unobserved; an existing active row
of the config carrying that DN (untouched by the pass, given distinct row
ids and fresh created ids) is then marked (inactive, stale) by the
staleness step of the same pass although the entry was present, and the
failure is counted in the errors stat. -/
theorem c10_failed_upsert_stales (w : LDAPWorld) (c : LDAPConfig)
    (users : List LDAPUser) (sys : List SysUser) (ids sysIds : Nat → String)
    (now : Int) (d : LdapData) (u : LDAPUser)
    (hen : c.enabled = true) (hs : c.sync_enabled = true)
    (hconn : w.bind (connectAttempt c none none).1
      (connectAttempt c none none).2 = true)
    (hn0 : (users.map (fun x => x.id)).Nodup)
    (hfreshN : ∀ i < (get_all_ldap_users w c).length,
      ids i ∉ users.map (fun x => x.id))
    (hinjN : ∀ i < (get_all_ldap_users w c).length,
      ∀ j < (get_all_ldap_users w c).length, ids i = ids j → i = j)
    (hd : d ∈ get_all_ldap_users w c)
    (hfail : w.persistFail (d.dn.getD "") = true)
    (hm : u ∈ users) (hcid : u.ldap_config_id = c.id)
    (hudn : u.ldap_dn = d.dn.getD "") (hact : u.is_active = true) :
    u ∈ (syncUpsertPhase w c users sys ids sysIds now).users ∧
    u.ldap_dn ∉ (syncUpsertPhase w c users sys ids sysIds now).active_dns ∧
    { u with is_active := false, sync_status := "stale" } ∈
      (sync_users w (some c) users sys ids sysIds now).users ∧
    1 ≤ ((sync_users w (some c) users sys ids sysIds now).stats.lookup
      "errors").getD 0 := by
  have hmid : u ∈ (syncUpsertPhase w c users sys ids sysIds now).users := by
    unfold syncUpsertPhase
    refine syncFold_keeps_row w c ids sysIds now (get_all_ldap_users w c).enum
      ⟨users, sys, [], 0, 0, 0⟩ u hm hn0 ?_ ?_ ?_ ?_
    · intro p hp
      exact hfreshN p.1 (mem_enum_facts hp).1
    · intro p hp q hq h
      exact hinjN p.1 (mem_enum_facts hp).1 q.1 (mem_enum_facts hq).1 h
    · rw [List.enum_map_fst]
      exact List.nodup_range _
    · intro p hp
      have hpd := (mem_enum_facts hp).2
      refine ⟨(get_all_dn_isSome hpd).1, ?_⟩
      by_cases hdn : p.2.dn.getD "" = u.ldap_dn
      · right
        rw [hdn, hudn]
        exact hfail
      · left
        exact fun h => hdn h.symm
  have hobs : u.ldap_dn ∉
      (syncUpsertPhase w c users sys ids sysIds now).active_dns := by
    unfold syncUpsertPhase
    rw [syncFold_active_dns]
    intro hmem
    simp only [List.nil_append] at hmem
    obtain ⟨p, hpf, hpe⟩ := List.mem_map.1 hmem
    have hfil := List.of_mem_filter hpf
    have hpt : w.persistFail (p.2.dn.getD "") = true := by
      rw [hpe, hudn]
      exact hfail
    rw [hpt] at hfil
    cases hfil
  have herrs : 1 ≤ (syncUpsertPhase w c users sys ids sysIds now).errors := by
    unfold syncUpsertPhase
    have h2 := (syncFold_counts w c ids sysIds now (get_all_ldap_users w c).enum
      ⟨users, sys, [], 0, 0, 0⟩).2
    have h0 : (⟨users, sys, [], 0, 0, 0⟩ : SyncAcc).errors = 0 := rfl
    rw [h0] at h2
    have h3 := countP_enum (fun x => w.persistFail (x.dn.getD ""))
      (get_all_ldap_users w c)
    have hpos : 0 < (get_all_ldap_users w c).countP
        (fun x => w.persistFail (x.dn.getD "")) :=
      List.countP_pos_iff.2 ⟨d, hd, hfail⟩
    omega
  refine ⟨hmid, hobs, ?_, ?_⟩
  · rw [sync_users_run w c users sys ids sysIds now hen hs hconn]
    exact mark_stale_mem_of_cond hmid ((staleCond_iff _ _ _).2 ⟨hcid, hobs, hact⟩)
  · rw [sync_users_run w c users sys ids sysIds now hen hs hconn]
    show 1 ≤ (syncUpsertPhase w c users sys ids sysIds now).errors
    exact herrs

/-- Witness for C10 at concrete inputs: bob's upsert fails, his DN is not
observed, and his previously active row ends up stale although the
directory still holds bob. -/
theorem c10_failed_upsert_stales_witness :
    "uid=bob,dc=example" ∉
      (syncUpsertPhase worldSyncFail cfgSearch [bobUser] [] idsA sysIdsA
        0).active_dns ∧
    { bobUser with is_active := false, sync_status := "stale" } ∈
      (sync_users worldSyncFail (some cfgSearch) [bobUser] [] idsA sysIdsA
        0).users := by
  have h := c10_failed_upsert_stales worldSyncFail cfgSearch [bobUser] []
    idsA sysIdsA 0 (entryToData cfgSearch entryBob) bobUser rfl rfl
    (by decide) (by decide) (by decide) (by decide) (by decide) (by decide)
    (by decide) (by decide) (by decide) (by decide)
  exact ⟨h.2.1, h.2.2.1⟩

lemma find?_map_pred (g : LDAPUser → LDAPUser) (q : LDAPUser → Bool)
    (hq : ∀ u, q (g u) = q u) (l : List LDAPUser) :
    (l.map g).find? q = (l.find? q).map g := by
  induction l with
  | nil => rfl
  | cons a t ih =>
    rw [List.map_cons]
    by_cases ha : q a = true
    · rw [List.find?_cons_of_pos _ (by rw [hq a]; exact ha),
        List.find?_cons_of_pos _ ha]
      rfl
    · rw [@List.find?_cons_of_neg _ q (g a) (t.map g) (by rw [hq a]; exact ha),
        @List.find?_cons_of_neg _ q a t ha, ih]

lemma get_by_dn_map (g : LDAPUser → LDAPUser)
    (hg : ∀ u, (g u).ldap_config_id = u.ldap_config_id ∧
      (g u).ldap_dn = u.ldap_dn) (l : List LDAPUser) (cid dn : String) :
    get_by_dn (l.map g) cid dn = (get_by_dn l cid dn).map g := by
  unfold get_by_dn
  exact find?_map_pred g _ (fun u => by rw [(hg u).1, (hg u).2]) l

lemma get_by_dn_append (l1 l2 : List LDAPUser) (cid dn : String) :
    get_by_dn (l1 ++ l2) cid dn =
      (get_by_dn l1 cid dn).or (get_by_dn l2 cid dn) := by
  unfold get_by_dn
  exact List.find?_append

lemma activeByDn_updateById (l : List LDAPUser) (cid dn uid : String)
    (f : LDAPUser → LDAPUser)
    (hf : ∀ u, (f u).ldap_config_id = u.ldap_config_id ∧
      (f u).ldap_dn = u.ldap_dn)
    (hfa : ∀ u, u.is_active = true → (f u).is_active = true)
    (h : ActiveByDn l cid dn) : ActiveByDn (updateById l uid f) cid dn := by
  obtain ⟨v, hv, hva⟩ := h
  have hmap : get_by_dn (updateById l uid f) cid dn =
      (get_by_dn l cid dn).map
        (fun u => if (u.id == uid) = true then f u else u) := by
    unfold updateById
    refine get_by_dn_map _ ?_ l cid dn
    intro u
    by_cases hid : (u.id == uid) = true <;> simp [hid, hf u]
  rw [hv] at hmap
  refine ⟨_, hmap, ?_⟩
  by_cases hid : (v.id == uid) = true <;> simp [hid, hva, hfa v hva]

lemma activeByDn_create_system_user (sys : List SysUser) (l : List LDAPUser)
    (u : LDAPUser) (nid cid dn : String) (h : ActiveByDn l cid dn) :
    ActiveByDn (create_system_user sys l u nid).2 cid dn := by
  unfold create_system_user
  split
  · exact activeByDn_updateById l cid dn u.id _ (fun x => ⟨rfl, rfl⟩)
      (fun x hx => hx) h
  · exact activeByDn_updateById l cid dn u.id _ (fun x => ⟨rfl, rfl⟩)
      (fun x hx => hx) h

lemma activeByDn_append (l : List LDAPUser) (l2 : List LDAPUser)
    (cid dn : String) (h : ActiveByDn l cid dn) :
    ActiveByDn (l ++ l2) cid dn := by
  obtain ⟨v, hv, hva⟩ := h
  refine ⟨v, ?_, hva⟩
  rw [get_by_dn_append, hv]
  rfl

lemma syncStep_establishes (w : LDAPWorld) (c : LDAPConfig)
    (ids sysIds : Nat → String) (now : Int) (acc : SyncAcc)
    (p : Nat × LdapData) (dn0 : String) (hdn0 : p.2.dn = some dn0)
    (hact : p.2.is_active.getD true = true)
    (hpf : w.persistFail (p.2.dn.getD "") = false) :
    ActiveByDn (syncStep w c ids sysIds now acc p).users c.id dn0 := by
  have hgd : p.2.dn.getD "" = dn0 := by rw [hdn0]; rfl
  cases hl : lookupExisting acc.users c.id p.2 with
  | some ex =>
    rw [syncStep_update w c ids sysIds now acc p ex hpf hl]
    have hlx : get_by_dn acc.users c.id dn0 = some ex := by
      rw [← lookupExisting_dn hdn0]
      exact hl
    have hmap : get_by_dn (updateById acc.users ex.id (applyUpdate p.2 now))
        c.id dn0 =
        (get_by_dn acc.users c.id dn0).map
          (fun u => if (u.id == ex.id) = true then applyUpdate p.2 now u
            else u) := by
      unfold updateById
      refine get_by_dn_map _ ?_ acc.users c.id dn0
      intro u
      by_cases hid : (u.id == ex.id) = true
      · rw [if_pos hid]
        exact ⟨rfl, rfl⟩
      · rw [if_neg hid]
        exact ⟨rfl, rfl⟩
    rw [hlx] at hmap
    refine ⟨_, hmap, ?_⟩
    have hbeq : (ex.id == ex.id) = true := by simp
    show (if (ex.id == ex.id) = true then applyUpdate p.2 now ex
      else ex).is_active = true
    rw [if_pos hbeq]
    exact hact
  | none =>
    rw [syncStep_create w c ids sysIds now acc p hpf hl]
    have hnone : get_by_dn acc.users c.id dn0 = none := by
      rw [← lookupExisting_dn hdn0]
      exact hl
    have hpr : ((newUserRow c.id p.2 now (ids p.1)).ldap_config_id == c.id &&
        (newUserRow c.id p.2 now (ids p.1)).ldap_dn == dn0) = true := by
      have h1 : (newUserRow c.id p.2 now (ids p.1)).ldap_config_id = c.id := rfl
      have h2 : (newUserRow c.id p.2 now (ids p.1)).ldap_dn =
          p.2.dn.getD "" := rfl
      rw [h1, h2, hgd]
      simp
    have happ : get_by_dn (acc.users ++ [newUserRow c.id p.2 now (ids p.1)])
        c.id dn0 = some (newUserRow c.id p.2 now (ids p.1)) := by
      rw [get_by_dn_append, hnone]
      exact @List.find?_cons_of_pos LDAPUser
        (fun u => u.ldap_config_id == c.id && u.ldap_dn == dn0)
        (newUserRow c.id p.2 now (ids p.1)) [] hpr
    have hbase : ActiveByDn
        (acc.users ++ [newUserRow c.id p.2 now (ids p.1)]) c.id dn0 :=
      ⟨newUserRow c.id p.2 now (ids p.1), happ, hact⟩
    by_cases hac : c.auto_create_user = true
    · simp only [hac, if_true]
      exact activeByDn_create_system_user _ _ _ _ _ _ hbase
    · simp only [hac, if_false, Bool.false_eq_true]
      exact hbase

lemma syncStep_preserves_activeByDn (w : LDAPWorld) (c : LDAPConfig)
    (ids sysIds : Nat → String) (now : Int) (acc : SyncAcc)
    (p : Nat × LdapData) (dn : String)
    (hact : p.2.is_active.getD true = true)
    (h : ActiveByDn acc.users c.id dn) :
    ActiveByDn (syncStep w c ids sysIds now acc p).users c.id dn := by
  cases hpf : w.persistFail (p.2.dn.getD "") with
  | true =>
    rw [syncStep_fail w c ids sysIds now acc p hpf]
    exact h
  | false =>
    cases hl : lookupExisting acc.users c.id p.2 with
    | some ex =>
      rw [syncStep_update w c ids sysIds now acc p ex hpf hl]
      exact activeByDn_updateById _ _ _ _ _ (fun u => ⟨rfl, rfl⟩)
        (fun u _ => hact) h
    | none =>
      rw [syncStep_create w c ids sysIds now acc p hpf hl]
      have hbase := activeByDn_append acc.users
        [newUserRow c.id p.2 now (ids p.1)] c.id dn h
      by_cases hac : c.auto_create_user = true
      · simp only [hac, if_true]
        exact activeByDn_create_system_user _ _ _ _ _ _ hbase
      · simp only [hac, if_false, Bool.false_eq_true]
        exact hbase

lemma syncFold_preserves_activeByDn (w : LDAPWorld) (c : LDAPConfig)
    (ids sysIds : Nat → String) (now : Int) (l : List (Nat × LdapData))
    (acc : SyncAcc) (dn : String)
    (hall : ∀ p ∈ l, p.2.is_active.getD true = true)
    (h : ActiveByDn acc.users c.id dn) :
    ActiveByDn ((l.foldl (syncStep w c ids sysIds now) acc).users) c.id dn := by
  induction l generalizing acc with
  | nil => exact h
  | cons q rest ih =>
    rw [List.foldl_cons]
    exact ih (syncStep w c ids sysIds now acc q)
      (fun p hp => hall p (List.mem_cons_of_mem q hp))
      (syncStep_preserves_activeByDn w c ids sysIds now acc q dn
        (hall q (List.mem_cons_self q rest)) h)

lemma syncFold_establishes (w : LDAPWorld) (c : LDAPConfig)
    (ids sysIds : Nat → String) (now : Int) (l : List (Nat × LdapData))
    (acc : SyncAcc)
    (hall : ∀ p ∈ l, p.2.dn.isSome ∧ p.2.is_active.getD true = true ∧
      w.persistFail (p.2.dn.getD "") = false) :
    ∀ p ∈ l, ActiveByDn ((l.foldl (syncStep w c ids sysIds now) acc).users)
      c.id (p.2.dn.getD "") := by
  induction l generalizing acc with
  | nil => intro p hp; cases hp
  | cons q rest ih =>
    intro p hp
    rw [List.foldl_cons]
    rcases List.mem_cons.1 hp with rfl | hp'
    · have hq := hall p (List.mem_cons_self p rest)
      obtain ⟨dn0, hdn0⟩ := Option.isSome_iff_exists.1 hq.1
      have hgd : p.2.dn.getD "" = dn0 := by rw [hdn0]; rfl
      rw [hgd]
      exact syncFold_preserves_activeByDn w c ids sysIds now rest
        (syncStep w c ids sysIds now acc p) dn0
        (fun r hr => (hall r (List.mem_cons_of_mem p hr)).2.1)
        (syncStep_establishes w c ids sysIds now acc p dn0 hdn0
          hq.2.1 hq.2.2)
    · exact ih (syncStep w c ids sysIds now acc q)
        (fun r hr => hall r (List.mem_cons_of_mem q hr)) p hp'

lemma run2_fold (w : LDAPWorld) (c : LDAPConfig) (ids sysIds : Nat → String)
    (now : Int) (allDns : List String) (l : List (Nat × LdapData))
    (acc : SyncAcc)
    (hall : ∀ p ∈ l, p.2.dn.isSome ∧ p.2.dn.getD "" ∈ allDns ∧
      p.2.is_active.getD true = true ∧ w.persistFail (p.2.dn.getD "") = false)
    (hinv : ∀ dn ∈ allDns, ActiveByDn acc.users c.id dn)
    (hn : (acc.users.map (fun x => x.id)).Nodup)
    (hdom : ∀ u ∈ acc.users, u.ldap_config_id = c.id → u.is_active = true →
      u.ldap_dn ∈ allDns) :
    (l.foldl (syncStep w c ids sysIds now) acc).created = acc.created ∧
    (l.foldl (syncStep w c ids sysIds now) acc).errors = acc.errors ∧
    (l.foldl (syncStep w c ids sysIds now) acc).updated =
      acc.updated + l.length ∧
    (∀ u ∈ (l.foldl (syncStep w c ids sysIds now) acc).users,
      u.ldap_config_id = c.id → u.is_active = true →
      u.ldap_dn ∈ allDns) := by
  induction l generalizing acc with
  | nil => exact ⟨rfl, rfl, by simp, hdom⟩
  | cons p rest ih =>
    rw [List.foldl_cons]
    obtain ⟨hds, hdin, hia, hpf⟩ := hall p (List.mem_cons_self p rest)
    obtain ⟨dn0, hdn0⟩ := Option.isSome_iff_exists.1 hds
    have hgd : p.2.dn.getD "" = dn0 := by rw [hdn0]; rfl
    obtain ⟨v, hv, hva⟩ := hinv dn0 (hgd ▸ hdin)
    have hvm : v ∈ acc.users := get_by_dn_mem hv
    have hvdn : v.ldap_dn = dn0 := (get_by_dn_props hv).2
    have hl : lookupExisting acc.users c.id p.2 = some v := by
      rw [lookupExisting_dn hdn0]
      exact hv
    rw [syncStep_update w c ids sysIds now acc p v hpf hl]
    have hinv2 : ∀ dn ∈ allDns,
        ActiveByDn (updateById acc.users v.id (applyUpdate p.2 now)) c.id dn :=
      fun dn hdn => activeByDn_updateById _ _ _ _ _ (fun u => ⟨rfl, rfl⟩)
        (fun u _ => hia) (hinv dn hdn)
    have hn2 : ((updateById acc.users v.id (applyUpdate p.2 now)).map
        (fun x => x.id)).Nodup := by
      rw [updateById_map_id _ _ _ (applyUpdate_id p.2 now)]
      exact hn
    have hdom2 : ∀ u ∈ updateById acc.users v.id (applyUpdate p.2 now),
        u.ldap_config_id = c.id → u.is_active = true →
        u.ldap_dn ∈ allDns := by
      intro x hx hcx hax
      unfold updateById at hx
      obtain ⟨u, hu, hxe⟩ := List.mem_map.1 hx
      by_cases hid : (u.id == v.id) = true
      · have huv : u = v :=
          List.inj_on_of_nodup_map hn hu hvm (by simpa using hid)
        rw [if_pos hid] at hxe
        have hxd : x.ldap_dn = u.ldap_dn := by rw [← hxe]; rfl
        rw [hxd, huv, hvdn]
        exact hgd ▸ hdin
      · rw [if_neg hid] at hxe
        subst hxe
        exact hdom u hu hcx hax
    obtain ⟨h1, h2, h3, h4⟩ := ih
      { acc with
        users := updateById acc.users v.id (applyUpdate p.2 now)
        active_dns := acc.active_dns ++ [p.2.dn.getD ""]
        updated := acc.updated + 1 }
      (fun q hq => hall q (List.mem_cons_of_mem p hq)) hinv2 hn2 hdom2
    refine ⟨h1, h2, ?_, h4⟩
    rw [h3]
    simp
    omega

lemma mark_stale_map_id (store : List LDAPUser) (cid : String)
    (dns : List String) :
    ((mark_stale_users store cid dns).1).map (fun x => x.id) =
      store.map (fun x => x.id) := by
  unfold mark_stale_users
  rw [List.map_map]
  refine List.map_eq_map_iff.mpr ?_
  intro x _
  by_cases hx : staleCond cid dns x = true <;> simp [hx]

lemma activeByDn_mark_stale (store : List LDAPUser) (cid : String)
    (dns : List String) (dn : String) (hdn : dn ∈ dns)
    (h : ActiveByDn store cid dn) :
    ActiveByDn (mark_stale_users store cid dns).1 cid dn := by
  obtain ⟨v, hv, hva⟩ := h
  have hvdn : v.ldap_dn = dn := (get_by_dn_props hv).2
  have hsc : staleCond cid dns v = false := by
    cases hsc : staleCond cid dns v with
    | false => rfl
    | true =>
      obtain ⟨_, hnin, _⟩ := (staleCond_iff _ _ _).1 hsc
      rw [hvdn] at hnin
      exact absurd hdn hnin
  have hmap : get_by_dn (mark_stale_users store cid dns).1 cid dn =
      (get_by_dn store cid dn).map
        (fun u => if staleCond cid dns u then
          { u with is_active := false, sync_status := "stale" } else u) := by
    unfold mark_stale_users
    refine get_by_dn_map _ ?_ store cid dn
    intro u
    by_cases hu : staleCond cid dns u = true <;> simp [hu]
  rw [hv] at hmap
  refine ⟨_, hmap, ?_⟩
  simp [hsc, hva]

lemma domain_mark_stale (store : List LDAPUser) (cid : String)
    (dns : List String) :
    ∀ u ∈ (mark_stale_users store cid dns).1, u.ldap_config_id = cid →
      u.is_active = true → u.ldap_dn ∈ dns := by
  intro x hx hcx hax
  unfold mark_stale_users at hx
  obtain ⟨u, hu, hxe⟩ := List.mem_map.1 hx
  by_cases hsc : staleCond cid dns u = true
  · rw [if_pos hsc] at hxe
    subst hxe
    simp at hax
  · rw [if_neg hsc] at hxe
    subst hxe
    by_contra hnin
    exact hsc ((staleCond_iff _ _ _).2 ⟨hcx, hnin, hax⟩)

lemma enumFrom_map_getD (l : List LdapData) (n : Nat) :
    (List.enumFrom n l).map (fun p => p.2.dn.getD "") =
      l.map (fun d => d.dn.getD "") := by
  induction l generalizing n with
  | nil => rfl
  | cons a t ih => simp [List.enumFrom, ih]

lemma enum_map_getD (l : List LdapData) :
    l.enum.map (fun p => p.2.dn.getD "") = l.map (fun d => d.dn.getD "") :=
  enumFrom_map_getD l 0

lemma mem_enumFrom_of_mem {α : Type} {d : α} {l : List α} (h : d ∈ l)
    (n : Nat) : ∃ p ∈ List.enumFrom n l, p.2 = d := by
  induction l generalizing n with
  | nil => cases h
  | cons a t ih =>
    rcases List.mem_cons.1 h with rfl | h'
    · exact ⟨(n, d), List.mem_cons_self _ _, rfl⟩
    · obtain ⟨p, hp, he⟩ := ih h' (n + 1)
      exact ⟨p, List.mem_cons_of_mem _ hp, he⟩

lemma get_all_enum_props (w : LDAPWorld) (c : LDAPConfig) :
    ∀ p ∈ (get_all_ldap_users w c).enum,
      p.2.dn.isSome ∧ p.2.is_active.getD true = true := by
  intro p hp
  obtain ⟨h1, h2⟩ := get_all_dn_isSome (mem_enum_facts hp).2
  exact ⟨h1, by rw [h2]; rfl⟩

lemma run1_active_dns (w : LDAPWorld) (c : LDAPConfig)
    (ids sysIds : Nat → String) (now : Int) (users : List LDAPUser)
    (sys : List SysUser)
    (hnf : ∀ d ∈ get_all_ldap_users w c, w.persistFail (d.dn.getD "") = false) :
    (syncUpsertPhase w c users sys ids sysIds now).active_dns =
      (get_all_ldap_users w c).map (fun d => d.dn.getD "") := by
  unfold syncUpsertPhase
  rw [syncFold_active_dns]
  have hfil : (get_all_ldap_users w c).enum.filter
      (fun p => !w.persistFail (p.2.dn.getD "")) =
      (get_all_ldap_users w c).enum := by
    rw [List.filter_eq_self]
    intro p hp
    rw [hnf p.2 (mem_enum_facts hp).2]
    rfl
  rw [hfil]
  simp [enum_map_getD]

lemma run1_syncedStore (w : LDAPWorld) (c : LDAPConfig) (users : List LDAPUser)
    (sys : List SysUser) (ids sysIds : Nat → String) (now : Int)
    (hen : c.enabled = true) (hs : c.sync_enabled = true)
    (hconn : w.bind (connectAttempt c none none).1
      (connectAttempt c none none).2 = true)
    (hnf : ∀ d ∈ get_all_ldap_users w c, w.persistFail (d.dn.getD "") = false)
    (hn0 : (users.map (fun x => x.id)).Nodup)
    (hfreshN : ∀ i < (get_all_ldap_users w c).length,
      ids i ∉ users.map (fun x => x.id))
    (hinjN : ∀ i < (get_all_ldap_users w c).length,
      ∀ j < (get_all_ldap_users w c).length, ids i = ids j → i = j) :
    SyncedStore c.id ((get_all_ldap_users w c).map (fun d => d.dn.getD ""))
      (sync_users w (some c) users sys ids sysIds now).users := by
  rw [sync_users_run w c users sys ids sysIds now hen hs hconn]
  have hallp : ∀ p ∈ (get_all_ldap_users w c).enum,
      p.2.dn.isSome ∧ p.2.is_active.getD true = true ∧
        w.persistFail (p.2.dn.getD "") = false := by
    intro p hp
    obtain ⟨h1, h2⟩ := get_all_enum_props w c p hp
    exact ⟨h1, h2, hnf p.2 (mem_enum_facts hp).2⟩
  refine ⟨?_, ?_, ?_⟩
  · rw [mark_stale_map_id]
    unfold syncUpsertPhase
    refine syncFold_nodup w c ids sysIds now (get_all_ldap_users w c).enum
      ⟨users, sys, [], 0, 0, 0⟩ hn0 ?_ ?_ ?_
    · intro p hp
      exact hfreshN p.1 (mem_enum_facts hp).1
    · intro p hp q hq h
      exact hinjN p.1 (mem_enum_facts hp).1 q.1 (mem_enum_facts hq).1 h
    · rw [List.enum_map_fst]
      exact List.nodup_range _
  · intro dn hdn
    obtain ⟨d0, hd0, hde⟩ := List.mem_map.1 hdn
    obtain ⟨p, hp, hpe⟩ := mem_enumFrom_of_mem hd0 0
    have hp' : p ∈ (get_all_ldap_users w c).enum := hp
    have hest : ActiveByDn
        (syncUpsertPhase w c users sys ids sysIds now).users c.id
        (p.2.dn.getD "") :=
      syncFold_establishes w c ids sysIds now (get_all_ldap_users w c).enum
        ⟨users, sys, [], 0, 0, 0⟩ hallp p hp'
    rw [hpe, hde] at hest
    refine activeByDn_mark_stale _ _ _ _ ?_ hest
    rw [run1_active_dns w c ids sysIds now users sys hnf]
    exact hdn
  · intro x hx hcx hax
    have hd := domain_mark_stale
      (syncUpsertPhase w c users sys ids sysIds now).users c.id
      (syncUpsertPhase w c users sys ids sysIds now).active_dns x hx hcx hax
    rwa [run1_active_dns w c ids sysIds now users sys hnf] at hd

/-- C4: over an unchanged directory, a reliable store, distinct row ids and
fresh created ids, a successful pass followed by a second pass reports
created=0, updated=N (the number of enumerated entries) and deactivated=0
on the second pass — reconciliation is idempotent. -/
theorem c4_idempotent (w : LDAPWorld) (c : LDAPConfig) (users : List LDAPUser)
    (sys : List SysUser) (ids sysIds ids2 sysIds2 : Nat → String)
    (now now2 : Int)
    (hen : c.enabled = true) (hs : c.sync_enabled = true)
    (hconn : w.bind (connectAttempt c none none).1
      (connectAttempt c none none).2 = true)
    (hnf : ∀ d ∈ get_all_ldap_users w c, w.persistFail (d.dn.getD "") = false)
    (hn0 : (users.map (fun x => x.id)).Nodup)
    (hfreshN : ∀ i < (get_all_ldap_users w c).length,
      ids i ∉ users.map (fun x => x.id))
    (hinjN : ∀ i < (get_all_ldap_users w c).length,
      ∀ j < (get_all_ldap_users w c).length, ids i = ids j → i = j) :
    (sync_users w (some c) users sys ids sysIds now).success = true ∧
    (syncTwice w (some c) users sys ids sysIds ids2 sysIds2 now
      now2).success = true ∧
    (syncTwice w (some c) users sys ids sysIds ids2 sysIds2 now
      now2).stats.lookup "created" = some 0 ∧
    (syncTwice w (some c) users sys ids sysIds ids2 sysIds2 now
      now2).stats.lookup "updated" = some (get_all_ldap_users w c).length ∧
    (syncTwice w (some c) users sys ids sysIds ids2 sysIds2 now
      now2).stats.lookup "deactivated" = some 0 := by
  obtain ⟨hn1, hinv1, hdom1⟩ := run1_syncedStore w c users sys ids sysIds now
    hen hs hconn hnf hn0 hfreshN hinjN
  have hall2 : ∀ p ∈ (get_all_ldap_users w c).enum,
      p.2.dn.isSome ∧ p.2.dn.getD "" ∈
        (get_all_ldap_users w c).map (fun d => d.dn.getD "") ∧
      p.2.is_active.getD true = true ∧
      w.persistFail (p.2.dn.getD "") = false := by
    intro p hp
    obtain ⟨h1, h2⟩ := get_all_enum_props w c p hp
    refine ⟨h1, ?_, h2, hnf p.2 (mem_enum_facts hp).2⟩
    exact List.mem_map_of_mem _ (mem_enum_facts hp).2
  obtain ⟨hc2, he2, hu2, hdom2⟩ := run2_fold w c ids2 sysIds2 now2
    ((get_all_ldap_users w c).map (fun d => d.dn.getD ""))
    (get_all_ldap_users w c).enum
    ⟨(sync_users w (some c) users sys ids sysIds now).users,
     (sync_users w (some c) users sys ids sysIds now).sys, [], 0, 0, 0⟩
    hall2 hinv1 hn1 hdom1
  refine ⟨?_, ?_, ?_, ?_, ?_⟩
  · rw [sync_users_run w c users sys ids sysIds now hen hs hconn]
  · unfold syncTwice
    rw [sync_users_run w c
      ((sync_users w (some c) users sys ids sysIds now).users)
      ((sync_users w (some c) users sys ids sysIds now).sys)
      ids2 sysIds2 now2 hen hs hconn]
  · unfold syncTwice
    rw [sync_users_run w c
      ((sync_users w (some c) users sys ids sysIds now).users)
      ((sync_users w (some c) users sys ids sysIds now).sys)
      ids2 sysIds2 now2 hen hs hconn]
    refine congrArg some ?_
    show ((get_all_ldap_users w c).enum.foldl (syncStep w c ids2 sysIds2 now2)
      ⟨(sync_users w (some c) users sys ids sysIds now).users,
       (sync_users w (some c) users sys ids sysIds now).sys,
       [], 0, 0, 0⟩).created = 0
    exact hc2.trans rfl
  · unfold syncTwice
    rw [sync_users_run w c
      ((sync_users w (some c) users sys ids sysIds now).users)
      ((sync_users w (some c) users sys ids sysIds now).sys)
      ids2 sysIds2 now2 hen hs hconn]
    refine congrArg some ?_
    show ((get_all_ldap_users w c).enum.foldl (syncStep w c ids2 sysIds2 now2)
      ⟨(sync_users w (some c) users sys ids sysIds now).users,
       (sync_users w (some c) users sys ids sysIds now).sys,
       [], 0, 0, 0⟩).updated = (get_all_ldap_users w c).length
    rw [hu2]
    simp [List.enum_length]
  · unfold syncTwice
    rw [sync_users_run w c
      ((sync_users w (some c) users sys ids sysIds now).users)
      ((sync_users w (some c) users sys ids sysIds now).sys)
      ids2 sysIds2 now2 hen hs hconn]
    refine congrArg some ?_
    show ((syncUpsertPhase w c
        (sync_users w (some c) users sys ids sysIds now).users
        (sync_users w (some c) users sys ids sysIds now).sys
        ids2 sysIds2 now2).users).countP
      (staleCond c.id (syncUpsertPhase w c
        (sync_users w (some c) users sys ids sysIds now).users
        (sync_users w (some c) users sys ids sysIds now).sys
        ids2 sysIds2 now2).active_dns) = 0
    rw [List.countP_eq_zero]
    intro u hu hsc
    obtain ⟨hcx, hnin, hax⟩ := (staleCond_iff _ _ _).1 hsc
    apply hnin
    rw [run1_active_dns w c ids2 sysIds2 now2
      ((sync_users w (some c) users sys ids sysIds now).users)
      ((sync_users w (some c) users sys ids sysIds now).sys) hnf]
    exact hdom2 u hu hcx hax

/-- Witness for C4 at concrete inputs: syncing alice and bob twice from an
empty store gives created=0, updated=2, deactivated=0 on the second pass. -/
theorem c4_idempotent_witness :
    (syncTwice worldSync (some cfgSearch) [] [] idsA sysIdsA idsA sysIdsA 0
      1).stats.lookup "created" = some 0 ∧
    (syncTwice worldSync (some cfgSearch) [] [] idsA sysIdsA idsA sysIdsA 0
      1).stats.lookup "updated" = some 2 ∧
    (syncTwice worldSync (some cfgSearch) [] [] idsA sysIdsA idsA sysIdsA 0
      1).stats.lookup "deactivated" = some 0 := by
  have h := c4_idempotent worldSync cfgSearch [] [] idsA sysIdsA idsA sysIdsA
    0 1 rfl rfl (by decide) (by decide) (by decide) (by decide) (by decide)
  exact ⟨h.2.2.1, h.2.2.2.1.trans (by decide), h.2.2.2.2⟩

end RagflowLDAP
